import Mathlib

/-!
Verification of the fetch-parse-normalize pipeline of the financial-dashboard
repository: the two source adapters `CBRService` (currency rates,
`app/services/cbr_service.py`) and `MOEXService` (stock quotes,
`app/services/moex_service.py`), together with the supported-keys endpoints of
`app/api/endpoints.py`.

The embedding models decoded JSON documents as an inductive `Json` type,
Python numbers as exact rationals `ℚ`, and the Python exceptions that the
services raise and catch (`KeyError`, `ValueError`, `TypeError`,
`AttributeError`, `IndexError`) as an explicit error type threaded through
`Except`.  The network layer is abstracted into a `FetchOutcome`: either a
transport-level failure (`aiohttp.ClientError` or any other exception raised
while performing the request) or a response carrying an HTTP status and a
body-decoding result.  Timestamps (`datetime.now()`) are abstracted to an
opaque `Nat` supplied by the caller.  Python `float` values are modelled by
`ℚ`; `round(x, n)` is modelled by exact decimal round-half-to-even.
-/

namespace FinDash

/-- Decoded JSON values, as produced by `json.loads` / `response.json()`.
Objects are association lists in document order; numbers are exact rationals. -/
inductive Json where
  | null
  | bool (b : Bool)
  | num (q : ℚ)
  | str (s : String)
  | arr (elems : List Json)
  | obj (fields : List (String × Json))
deriving Repr

mutual

/-- Decidable equality for `Json` (hand-rolled because of the nesting through
`List`). -/
def Json.decEq (a b : Json) : Decidable (a = b) := by
  cases a <;> cases b <;>
    try { apply isFalse; intro h; injection h }
  case null.null => exact isTrue rfl
  case bool.bool x y =>
    exact match inferInstanceAs (Decidable (x = y)) with
    | isTrue h => isTrue (by rw [h])
    | isFalse hn => isFalse (by intro h; injection h; contradiction)
  case num.num x y =>
    exact match inferInstanceAs (Decidable (x = y)) with
    | isTrue h => isTrue (by rw [h])
    | isFalse hn => isFalse (by intro h; injection h; contradiction)
  case str.str x y =>
    exact match inferInstanceAs (Decidable (x = y)) with
    | isTrue h => isTrue (by rw [h])
    | isFalse hn => isFalse (by intro h; injection h; contradiction)
  case arr.arr xs ys =>
    exact match Json.decEqList xs ys with
    | isTrue h => isTrue (by rw [h])
    | isFalse hn => isFalse (by intro h; injection h; contradiction)
  case obj.obj fs gs =>
    exact match Json.decEqFields fs gs with
    | isTrue h => isTrue (by rw [h])
    | isFalse hn => isFalse (by intro h; injection h; contradiction)

/-- Decidable equality for lists of `Json`. -/
def Json.decEqList (xs ys : List Json) : Decidable (xs = ys) :=
  match xs, ys with
  | [], [] => isTrue rfl
  | _ :: _, [] => isFalse (by intro h; injection h)
  | [], _ :: _ => isFalse (by intro h; injection h)
  | x :: xs, y :: ys =>
    match Json.decEq x y, Json.decEqList xs ys with
    | isTrue h1, isTrue h2 => isTrue (by rw [h1, h2])
    | isFalse h1, _ => isFalse (by intro h; injection h; contradiction)
    | _, isFalse h2 => isFalse (by intro h; injection h; contradiction)

/-- Decidable equality for `Json` object field lists. -/
def Json.decEqFields (fs gs : List (String × Json)) : Decidable (fs = gs) :=
  match fs, gs with
  | [], [] => isTrue rfl
  | _ :: _, [] => isFalse (by intro h; injection h)
  | [], _ :: _ => isFalse (by intro h; injection h)
  | (k, v) :: fs, (l, w) :: gs =>
    match inferInstanceAs (Decidable (k = l)), Json.decEq v w, Json.decEqFields fs gs with
    | isTrue h1, isTrue h2, isTrue h3 => isTrue (by rw [h1, h2, h3])
    | isFalse h1, _, _ =>
      isFalse (by intro h; injection h with h4 h5; apply h1; exact congrArg Prod.fst h4)
    | _, isFalse h2, _ =>
      isFalse (by intro h; injection h with h4 h5; apply h2; exact congrArg Prod.snd h4)
    | _, _, isFalse h3 => isFalse (by intro h; injection h; contradiction)

end

instance : DecidableEq Json := Json.decEq

deriving instance DecidableEq for Except

/-- The Python exception classes distinguished by the services' handlers. -/
inductive PyErr where
  | keyError
  | valueError
  | typeError
  | attributeError
  | indexError
deriving Repr, DecidableEq

/-- `m.get(k, d)` on a Python value: dictionary lookup with a default; calling
`.get` on a non-dict raises `AttributeError`. -/
def Json.getD (j : Json) (k : String) (d : Json) : Except PyErr Json :=
  match j with
  | .obj fs => .ok ((fs.lookup k).getD d)
  | _ => .error .attributeError

/-- `container[k]` for a string key `k`: dictionary lookup raising `KeyError`
when absent; subscripting a list or string with a string key raises
`TypeError`, as does subscripting any non-container. -/
def Json.getItem (j : Json) (k : String) : Except PyErr Json :=
  match j with
  | .obj fs =>
    match fs.lookup k with
    | some v => .ok v
    | none => .error .keyError
  | _ => .error .typeError

/-- `k in container` for a string `k`: key membership for dicts, element
membership for lists, substring test for strings; `in` on other values raises
`TypeError`. -/
def Json.pyContains (j : Json) (k : String) : Except PyErr Bool :=
  match j with
  | .obj fs => .ok ((fs.map Prod.fst).contains k)
  | .arr xs => .ok (xs.contains (.str k))
  | .str s => .ok (decide (k.data <:+: s.data))
  | _ => .error .typeError

/-- The numeric value a JSON scalar carries for Python arithmetic and
comparisons (`bool` is a subclass of `int`: `True` counts as `1`). -/
def Json.asNum? : Json → Option ℚ
  | .num q => some q
  | .bool b => some (if b then 1 else 0)
  | _ => none

/-- Value of a digit run, most significant first. -/
def digitsVal (ds : List Char) : ℕ :=
  ds.foldl (fun a c => a * 10 + (c.toNat - 48)) 0

/-- `10^e` over `ℚ` for an integer exponent. -/
def pow10 (e : ℤ) : ℚ :=
  if 0 ≤ e then (10 : ℚ) ^ e.toNat else 1 / (10 : ℚ) ^ (-e).toNat

/-- Exponent part of a float literal: optional sign then a nonempty digit
run. -/
def parseExponent (cs : List Char) : Option ℤ :=
  let (sgn, rest) :=
    match cs with
    | '+' :: r => ((1 : ℤ), r)
    | '-' :: r => ((-1 : ℤ), r)
    | _ => ((1 : ℤ), cs)
  if rest ≠ [] ∧ rest.all Char.isDigit then some (sgn * digitsVal rest) else none

/-- Python `float(s)` on a string, modelled for the decimal and scientific
literal forms (optional surrounding whitespace, optional sign, digits with an
optional fractional part, optional `e`/`E` exponent).  The special forms
`inf`, `nan` and digit-group underscores are outside the model. -/
def parseFloat? (s : String) : Option ℚ :=
  let cs := ((s.data.dropWhile Char.isWhitespace).reverse.dropWhile Char.isWhitespace).reverse
  let (sgn, cs) :=
    match cs with
    | '+' :: r => ((1 : ℚ), r)
    | '-' :: r => ((-1 : ℚ), r)
    | _ => ((1 : ℚ), cs)
  let ip := cs.takeWhile Char.isDigit
  let cs1 := cs.dropWhile Char.isDigit
  let (fp, cs2) :=
    match cs1 with
    | '.' :: r => (r.takeWhile Char.isDigit, r.dropWhile Char.isDigit)
    | _ => (([] : List Char), cs1)
  if ip = [] ∧ fp = [] then none
  else
    let mant : ℚ := sgn * (digitsVal ip + (digitsVal fp : ℚ) / (10 : ℚ) ^ fp.length)
    match cs2 with
    | [] => some mant
    | 'e' :: r => (parseExponent r).map fun e => mant * pow10 e
    | 'E' :: r => (parseExponent r).map fun e => mant * pow10 e
    | _ => none

/-- Python `float(x)`: identity on numbers, `1.0`/`0.0` on booleans, literal
parsing on strings (`ValueError` on failure), `TypeError` on `None`, lists and
dicts. -/
def pyFloat : Json → Except PyErr ℚ
  | .num q => .ok q
  | .bool b => .ok (if b then 1 else 0)
  | .str s =>
    match parseFloat? s with
    | some q => .ok q
    | none => .error .valueError
  | _ => .error .typeError

/-- `x > bound` for a Python value `x` against a number: numeric comparison
for numbers and booleans, `TypeError` otherwise (e.g. `str > int`). -/
def pyGt (j : Json) (bound : ℚ) : Except PyErr Bool :=
  match j.asNum? with
  | some v => .ok (decide (bound < v))
  | none => .error .typeError

/-- The numeric value of a Python operand known to be a number or boolean;
arithmetic on any other value raises `TypeError`. -/
def pyNumVal (j : Json) : Except PyErr ℚ :=
  match j.asNum? with
  | some v => .ok v
  | none => .error .typeError

/-- Round-half-to-even to an integer, the tie-breaking Python's built-in
`round` documents. -/
def roundHalfEven (q : ℚ) : ℤ :=
  if q - ⌊q⌋ < 1 / 2 then ⌊q⌋
  else if 1 / 2 < q - ⌊q⌋ then ⌊q⌋ + 1
  else if ⌊q⌋ % 2 = 0 then ⌊q⌋ else ⌊q⌋ + 1

/-- Python `round(x, n)` modelled exactly over `ℚ` (the binary-double
representation error of CPython floats is abstracted away). -/
def roundTo (n : ℕ) (q : ℚ) : ℚ :=
  (roundHalfEven (q * (10 : ℚ) ^ n) : ℚ) / (10 : ℚ) ^ n

/-- Python `str.upper()`, modelled for ASCII as a character-wise map. -/
def pyUpper (s : String) : String := String.mk (s.data.map Char.toUpper)

/-- `d[k] = v` on a Python dict kept as an association list in insertion
order: replace in place when the key exists, append otherwise. -/
def dictSet {α : Type} (m : List (String × α)) (k : String) (v : α) :
    List (String × α) :=
  if (m.map Prod.fst).contains k then
    m.map fun p => if p.1 = k then (k, v) else p
  else
    m ++ [(k, v)]

/-- Outcome of one outbound HTTP GET, abstracting the network: either a
transport-level failure (connection error, timeout, or any other exception
raised while performing the request) or a response with its status code and
the result of decoding its body as JSON (`Except.error` is a decode failure,
`json.JSONDecodeError` for CBR, a failing `response.json()` for MOEX). -/
inductive FetchOutcome where
  | transportError
  | response (status : ℕ) (body : Except Unit Json)
deriving Repr, DecidableEq

/-! ### CBRService (`app/services/cbr_service.py`) -/

/-- `CurrencyRate`: the pydantic record for one currency (timestamps
abstracted to `ℕ`). -/
structure CurrencyRate where
  currency : String
  rate : ℚ
  change : ℚ
  change_percent : ℚ
  timestamp : ℕ
deriving Repr, DecidableEq

/-- `validate_positive_number`: the field validator run on `rate`, `change`
and `change_percent` at construction; a negative value is only logged, and
every value is rounded to 4 decimal digits. -/
def validate_positive_number (v : ℚ) : ℚ := roundTo 4 v

/-- Constructing a `CurrencyRate` through pydantic validation: the three
numeric fields pass `validate_positive_number`. -/
def CurrencyRate.make (currency : String) (rate change change_percent : ℚ)
    (timestamp : ℕ) : CurrencyRate :=
  { currency := currency
    rate := validate_positive_number rate
    change := validate_positive_number change
    change_percent := validate_positive_number change_percent
    timestamp := timestamp }

/-- `self.tracked_currencies` of `CBRService`. -/
def tracked_currencies : List String := ["USD", "EUR", "CNY", "GBP", "JPY"]

/-- One iteration of the `for currency_code in self.tracked_currencies` loop
of `CBRService._parse_rates`: look the code up in `data.get("Valute", {})`,
and when present extract `Value` and `Previous`, convert with `float`,
compute change and percent change, and store the built record. -/
def parseRatesStep (data : Json) (t : ℕ) (rates : List (String × CurrencyRate))
    (currency_code : String) : Except PyErr (List (String × CurrencyRate)) := do
  let container ← data.getD "Valute" (.obj [])
  if (← container.pyContains currency_code) then
    let valute ← data.getItem "Valute"
    let valute_data ← valute.getItem currency_code
    let current_value ← pyFloat (← valute_data.getItem "Value")
    let previous_value ← pyFloat (← valute_data.getItem "Previous")
    let change := current_value - previous_value
    let change_percent := if previous_value ≠ 0 then change / previous_value * 100 else 0
    return dictSet rates currency_code
      (CurrencyRate.make (currency_code ++ "/RUB") current_value change change_percent t)
  else
    return rates

/-- The body of `CBRService._parse_rates` before its exception handlers: the
loop over the tracked currencies, threading the `rates` dict. -/
def parseRatesRaw (data : Json) (t : ℕ) :
    Except PyErr (List (String × CurrencyRate)) :=
  tracked_currencies.foldlM (parseRatesStep data t) []

/-- `CBRService._parse_rates`: `KeyError` and `ValueError` are caught and
yield an empty dict; any other exception (e.g. the `TypeError` raised by
`float(None)`) propagates to the caller. -/
def parseRates (data : Json) (t : ℕ) :
    Except PyErr (List (String × CurrencyRate)) :=
  match parseRatesRaw data t with
  | .ok rates => .ok rates
  | .error .keyError => .ok []
  | .error .valueError => .ok []
  | .error e => .error e

/-- The mutable state of a `CBRService` instance: the cache pair.  Both start
as `None` in `__init__`. -/
structure CBRState where
  cache : Option (List (String × CurrencyRate))
  cacheTimestamp : Option ℕ
deriving Repr, DecidableEq

/-- The state of a freshly constructed `CBRService`. -/
def CBRState.init : CBRState := { cache := none, cacheTimestamp := none }

/-- `CBRService.get_rates`, as a function of the service state and the
outcome of the outbound request.  Returns the produced mapping and the
updated state.  A non-200 status or a JSON decode failure returns `{}`
without touching the cache; a successful parse replaces the cache and its
timestamp wholesale; an exception escaping `_parse_rates`, like every
transport-level error, is caught by the trailing handlers, which return
`self._cache or {}` and leave the state unchanged. -/
def getRates (st : CBRState) (outcome : FetchOutcome) (t : ℕ) :
    List (String × CurrencyRate) × CBRState :=
  match outcome with
  | .transportError => (st.cache.getD [], st)
  | .response status body =>
    if status ≠ 200 then ([], st)
    else
      match body with
      | .error _ => ([], st)
      | .ok data =>
        match parseRates data t with
        | .ok rates => (rates, { cache := some rates, cacheTimestamp := some t })
        | .error _ => (st.cache.getD [], st)

/-- `CBRService.get_specific_rate`: delegates to `get_rates` and looks up the
uppercased code with `dict.get` (i.e. `none` when absent). -/
def get_specific_rate (st : CBRState) (outcome : FetchOutcome) (t : ℕ)
    (currency : String) : Option CurrencyRate × CBRState :=
  let (rates, st') := getRates st outcome t
  (rates.lookup (pyUpper currency), st')

/-- `CBRService.get_cached_rates`. -/
def get_cached_rates (st : CBRState) : Option (List (String × CurrencyRate)) :=
  st.cache

/-! ### MOEXService (`app/services/moex_service.py`) -/

/-- `StockData`: the pydantic record for one stock; `price` and `volume`
carry `Field(ge=0)` constraints checked at construction. -/
structure StockData where
  ticker : String
  price : ℚ
  change_percent : ℚ
  volume : ℚ
  timestamp : ℕ
deriving Repr, DecidableEq

/-- `self.popular_tickers` of `MOEXService`. -/
def popular_tickers : List String :=
  ["SBER", "GAZP", "VTBR", "YNDX", "ROSN", "LKOH", "MGNT"]

/-- Python `len(x)`: length of a string, list or dict; `TypeError` on the
other values. -/
def pyLen : Json → Except PyErr ℕ
  | .str s => .ok s.length
  | .arr xs => .ok xs.length
  | .obj fs => .ok fs.length
  | _ => .error .typeError

/-- `x[i]` for an integer index `i ≥ 0`: list and string indexing with
`IndexError` past the end; a dict with string keys raises `KeyError` for an
integer key; other values raise `TypeError`. -/
def pyIndexNat : Json → ℕ → Except PyErr Json
  | .arr xs, i =>
    match xs.get? i with
    | some v => .ok v
    | none => .error .indexError
  | .str s, i =>
    match s.data.get? i with
    | some c => .ok (.str (String.mk [c]))
    | none => .error .indexError
  | .obj _, _ => .error .keyError
  | _, _ => .error .typeError

/-- `for item in x`: iterating a list yields its elements, a string its
one-character substrings, a dict its keys; other values raise `TypeError`. -/
def pyIterate : Json → Except PyErr (List Json)
  | .arr xs => .ok xs
  | .str s => .ok (s.data.map fun c => .str (String.mk [c]))
  | .obj fs => .ok (fs.map fun p => .str p.1)
  | _ => .error .typeError

/-- Python `list.index(v)`: position of the first occurrence, `ValueError`
when the element does not occur. -/
def listIndex (xs : List Json) (v : Json) : Except PyErr ℕ :=
  match xs with
  | [] => .error .valueError
  | x :: rest => if x = v then .ok 0 else (listIndex rest v).map (· + 1)

/-- The inner `try` of `MOEXService._parse_stocks_response` locating the
positional indices of the `SECID`, `LAST` and `OPEN` columns with
`list.index`.  `columns` defaults to `[]` when absent; calling `.index` on a
non-list raises (modelled as `AttributeError`; the degenerate case of a
string `columns`, where Python would substring-search, is not modelled). -/
def columnIndices (columns : Json) : Except PyErr (ℕ × ℕ × ℕ) :=
  match columns with
  | .arr xs => do
    let secid_idx ← listIndex xs (.str "SECID")
    let last_idx ← listIndex xs (.str "LAST")
    let open_idx ← listIndex xs (.str "OPEN")
    return (secid_idx, last_idx, open_idx)
  | _ => .error .attributeError

/-- The per-row body of the `for item in market_data_list` loop: guard the
row length against the column indices, read the three cells, filter on
tracked ticker, non-null prices and positive last price, compute the percent
change, and build the `StockData` (whose `Field(ge=0)` checks are modelled as
a `ValueError` on violation).  Returns `none` when the row is filtered out
without an exception. -/
def rowResult (item : Json) (secid_idx last_idx open_idx : ℕ) (t : ℕ) :
    Except PyErr (Option (String × StockData)) := do
  if (← pyLen item) > max secid_idx (max last_idx open_idx) then
    let ticker ← pyIndexNat item secid_idx
    let last_price ← pyIndexNat item last_idx
    let open_price ← pyIndexNat item open_idx
    let tracked : Bool := match ticker with
      | .str s => popular_tickers.contains s
      | _ => false
    if tracked ∧ last_price ≠ .null ∧ open_price ≠ .null then
      if (← pyGt last_price 0) then
        let change_percent ←
          if (← pyGt open_price 0) then do
            let last_q ← pyNumVal last_price
            let open_q ← pyNumVal open_price
            pure ((last_q - open_q) / open_q * 100)
          else
            pure (0 : ℚ)
        let price ← pyFloat last_price
        if price < 0 then
          .error .valueError
        else
          match ticker with
          | .str tick =>
            return some (tick,
              { ticker := tick
                price := price
                change_percent := roundTo 2 change_percent
                volume := 0
                timestamp := t })
          | _ => .error .typeError
      else
        return none
    else
      return none
  else
    return none

/-- One iteration of the row loop of `_parse_stocks_response`: the per-row
`try`/`except Exception: continue` turns any row-level exception into a
skip. -/
def processRow (secid_idx last_idx open_idx t : ℕ)
    (stocks : List (String × StockData)) (item : Json) :
    List (String × StockData) :=
  match rowResult item secid_idx last_idx open_idx t with
  | .ok (some (tick, sd)) => dictSet stocks tick sd
  | .ok none => stocks
  | .error _ => stocks

/-- `MOEXService._parse_stocks_response`: extract `marketdata`, its `columns`
and `data` (with empty defaults), locate the column indices, then fold the
row loop.  Every exception raised outside a row body — including the
`ValueError` of a missing required column — is caught by one of the trailing
handlers and yields the empty dict. -/
def parseStocksResponse (data : Json) (t : ℕ) : List (String × StockData) :=
  match (do
      let marketdata ← data.getD "marketdata" (.obj [])
      let columns ← marketdata.getD "columns" (.arr [])
      let market_data_list ← marketdata.getD "data" (.arr [])
      let idxs ← columnIndices columns
      let items ← pyIterate market_data_list
      return (idxs, items) : Except PyErr ((ℕ × ℕ × ℕ) × List Json)) with
  | .error _ => []
  | .ok ((secid_idx, last_idx, open_idx), items) =>
    items.foldl (processRow secid_idx last_idx open_idx t) []

/-- `MOEXService.get_stock_prices` composed with `_fetch_stocks_data`, as a
function of the request outcome: empty dict on transport errors, non-200
status and body-decode failure (`response.json()` raising); otherwise the
parse result.  The service keeps no cache. -/
def getStockPrices (outcome : FetchOutcome) (t : ℕ) :
    List (String × StockData) :=
  match outcome with
  | .transportError => []
  | .response status body =>
    if status ≠ 200 then []
    else
      match body with
      | .error _ => []
      | .ok data => parseStocksResponse data t

/-- `MOEXService.get_specific_stock`: delegates to `get_stock_prices` and
looks up the uppercased ticker with `dict.get`. -/
def get_specific_stock (outcome : FetchOutcome) (t : ℕ) (ticker : String) :
    Option StockData :=
  (getStockPrices outcome t).lookup (pyUpper ticker)

/-! ### Supported-keys accessors, with list objects as references

Whether a caller can mutate an adapter's internal key list through the value
it receives depends on Python object aliasing, so these accessors are
modelled over a small heap of list objects: `MOEXService.get_supported_tickers`
returns `self.popular_tickers.copy()` (a fresh object), while the
`/currencies/supported` endpoint of `app/api/endpoints.py` puts
`cbr_service.tracked_currencies` — the internal list object itself — into its
response. -/

/-- A heap of mutable string-list objects addressed by `ℕ`.  `next` is the
next fresh address; reads take the most recent binding. -/
structure ListHeap where
  next : ℕ
  store : List (ℕ × List String)
deriving Repr, DecidableEq

/-- The empty heap. -/
def ListHeap.empty : ListHeap := { next := 0, store := [] }

/-- Dereference a list object (unallocated addresses read as `[]`). -/
def ListHeap.read (h : ListHeap) (a : ℕ) : List String :=
  (h.store.lookup a).getD []

/-- Mutate the list object at `a` in place. -/
def ListHeap.write (h : ListHeap) (a : ℕ) (v : List String) : ListHeap :=
  { h with store := (a, v) :: h.store }

/-- Allocate a fresh list object holding `v`. -/
def ListHeap.alloc (h : ListHeap) (v : List String) : ℕ × ListHeap :=
  (h.next, { next := h.next + 1, store := (h.next, v) :: h.store })

/-- Every allocated address is below `next`, so fresh allocations never
collide with it. -/
def ListHeap.wf (h : ListHeap) : Prop :=
  ∀ p ∈ h.store, p.1 < h.next

/-- The `MOEXService` object, holding a reference to its `popular_tickers`
list. -/
structure MOEXServiceRef where
  popular_tickers_addr : ℕ
deriving Repr, DecidableEq

/-- `MOEXService.__init__`: allocates the `popular_tickers` list object. -/
def MOEXService.init (h : ListHeap) : MOEXServiceRef × ListHeap :=
  let (a, h') := h.alloc popular_tickers
  ({ popular_tickers_addr := a }, h')

/-- `MOEXService.get_supported_tickers`: returns
`self.popular_tickers.copy()`, a freshly allocated list object with the same
contents. -/
def get_supported_tickers (s : MOEXServiceRef) (h : ListHeap) : ℕ × ListHeap :=
  h.alloc (h.read s.popular_tickers_addr)

/-- The `CBRService` object, holding a reference to its `tracked_currencies`
list. -/
structure CBRServiceRef where
  tracked_currencies_addr : ℕ
deriving Repr, DecidableEq

/-- `CBRService.__init__`: allocates the `tracked_currencies` list object. -/
def CBRService.init (h : ListHeap) : CBRServiceRef × ListHeap :=
  let (a, h') := h.alloc tracked_currencies
  ({ tracked_currencies_addr := a }, h')

/-- The `/currencies/supported` endpoint (`get_supported_currencies`): its
response carries `cbr_service.tracked_currencies` itself — the internal list
object, with no copy and no fresh allocation. -/
def get_supported_currencies (s : CBRServiceRef) (h : ListHeap) :
    ℕ × ListHeap :=
  (s.tracked_currencies_addr, h)

/-! ### Concrete inputs used by witnesses and counterexamples -/

/-- A sample previously cached record. -/
def sampleRate : CurrencyRate :=
  { currency := "USD/RUB", rate := 92, change := 1, change_percent := 2,
    timestamp := 0 }

/-- A `CBRService` state holding one previously cached mapping. -/
def cachedState : CBRState :=
  { cache := some [("USD", sampleRate)], cacheTimestamp := some 0 }

/-- The spec's sample currency payload:
`{"Valute": {"USD": {"Value": 91.5, "Previous": 91.3}}}`. -/
def usdPayload : Json :=
  .obj [("Valute", .obj
    [("USD", .obj [("Value", .num (183 / 2)), ("Previous", .num (913 / 10))])])]

/-- The field list of the `USD` entry of `usdPayload`. -/
def usdFields : List (String × Json) :=
  [("Value", .num (183 / 2)), ("Previous", .num (913 / 10))]

/-- A currency payload whose `USD` entry lacks the `Value` field. -/
def missingValuePayload : Json :=
  .obj [("Valute", .obj [("USD", .obj [("Previous", .num 1)])])]

/-- A currency payload whose `USD` entry has `Value: null` — `float(None)`
raises `TypeError`, which `_parse_rates` does not catch. -/
def nullValuePayload : Json :=
  .obj [("Valute", .obj [("USD", .obj [("Value", .null), ("Previous", .num 1)])])]

/-- A currency payload whose `USD` entry has a list `Value` — `float([])`
also raises `TypeError`. -/
def listValuePayload : Json :=
  .obj [("Valute", .obj [("USD", .obj [("Value", .arr []), ("Previous", .num 1)])])]

/-- A market-data payload with the three required columns and one well-formed
`SBER` row (`LAST = 2`, `OPEN = 1`). -/
def sberPayload : Json :=
  .obj [("marketdata", .obj
    [("columns", .arr [.str "SECID", .str "LAST", .str "OPEN"]),
     ("data", .arr [.arr [.str "SBER", .num 2, .num 1]])])]

/-- A market-data payload whose `SBER` row has a negative `OPEN` price
(`-50`, written `mkRat (-50) 1`). -/
def negOpenPayload : Json :=
  .obj [("marketdata", .obj
    [("columns", .arr [.str "SECID", .str "LAST", .str "OPEN"]),
     ("data", .arr [.arr [.str "SBER", .num 100, .num (mkRat (-50) 1)]])])]

/-- A market-data payload missing the `OPEN` column. -/
def missingColumnPayload : Json :=
  .obj [("marketdata", .obj
    [("columns", .arr [.str "SECID", .str "LAST"]),
     ("data", .arr [.arr [.str "SBER", .num 2]])])]

/-- A tracked code whose entry in the valuta table is absent, or is an object
whose `Value` and `Previous` fields are present and convert with `float`:
the situations in which the `_parse_rates` loop body succeeds. -/
def entryWF (valute : List (String × Json)) (c : String) : Prop :=
  valute.lookup c = none
  ∨ ∃ fs vq pq, valute.lookup c = some (.obj fs)
      ∧ (∃ v, fs.lookup "Value" = some v ∧ pyFloat v = .ok vq)
      ∧ (∃ p, fs.lookup "Previous" = some p ∧ pyFloat p = .ok pq)

/-- An entry none of whose field values makes `float` raise `TypeError`
(each `Value`/`Previous` present is a number, boolean or string): rules out
the uncaught-exception path of `_parse_rates`. -/
def entryTame (e : Json) : Prop :=
  ∃ fs, e = .obj fs
    ∧ (∀ v, fs.lookup "Value" = some v → pyFloat v ≠ .error .typeError)
    ∧ (∀ p, fs.lookup "Previous" = some p → pyFloat p ≠ .error .typeError)

/-- A malformed entry in the sense of the batch-abort rule: `Value` missing,
or `Value` a non-numeric string, or `Value` fine but `Previous` missing or a
non-numeric string. -/
def entryBad (e : Json) : Prop :=
  ∃ fs, e = .obj fs
    ∧ (fs.lookup "Value" = none
      ∨ (∃ v, fs.lookup "Value" = some v ∧ pyFloat v = .error .valueError)
      ∨ (∃ v vq, fs.lookup "Value" = some v ∧ pyFloat v = .ok vq
          ∧ (fs.lookup "Previous" = none
            ∨ ∃ p, fs.lookup "Previous" = some p
                ∧ pyFloat p = .error .valueError)))

/-- The record the `USD` entry of `usdPayload` parses to: rate `91.5`, change
`0.2`, percent change `0.2191` (4-digit rounding of `200/913 · 100`). -/
def usdRate : CurrencyRate :=
  { currency := "USD/RUB", rate := 183 / 2, change := 1 / 5,
    change_percent := 2191 / 10000, timestamp := 0 }

/-- The quote the `SBER` row of `sberPayload` parses to. -/
def sberQuote : StockData :=
  { ticker := "SBER", price := 2, change_percent := 100, volume := 0,
    timestamp := 0 }

/-! ## General helper lemmas -/

/-- An element that does not occur makes `list.index` raise `ValueError`. -/
theorem listIndex_not_mem {xs : List Json} {v : Json} (h : v ∉ xs) :
    listIndex xs v = .error .valueError := by
  induction xs with
  | nil => rfl
  | cons x rest ih =>
    simp only [List.mem_cons, not_or] at h
    simp only [listIndex, ih h.2, Except.map]
    rw [if_neg fun hh => h.1 hh.symm]

/-- `list.index` either finds a position or raises `ValueError`. -/
theorem listIndex_ok_or (xs : List Json) (v : Json) :
    (∃ i, listIndex xs v = .ok i) ∨ listIndex xs v = .error .valueError := by
  induction xs with
  | nil => exact Or.inr rfl
  | cons x rest ih =>
    by_cases hx : x = v
    · exact Or.inl ⟨0, by simp [listIndex, hx]⟩
    · rcases ih with ⟨i, hi⟩ | hi
      · exact Or.inl ⟨i + 1, by simp [listIndex, hx, hi, Except.map]⟩
      · exact Or.inr (by simp [listIndex, hx, hi, Except.map])

/-- Membership in the dict after `d[k] = v`: every entry is an old entry or
the new binding. -/
theorem dictSet_mem {α : Type} {m : List (String × α)} {k : String} {v : α}
    {p : String × α} (h : p ∈ dictSet m k v) : p ∈ m ∨ p = (k, v) := by
  unfold dictSet at h
  split at h
  · rcases List.mem_map.1 h with ⟨q, hq, he⟩
    by_cases hk : q.1 = k
    · right
      rw [if_pos hk] at he
      exact he.symm
    · left
      rw [if_neg hk] at he
      exact he ▸ hq
  · rcases List.mem_append.1 h with hm | hm
    · exact Or.inl hm
    · right
      simpa using hm

/-- A successful `dict.get` exhibits the binding as an entry of the dict. -/
theorem lookup_mem {α : Type} {m : List (String × α)} {k : String} {v : α}
    (h : m.lookup k = some v) : (k, v) ∈ m := by
  induction m with
  | nil => cases h
  | cons q m ih =>
    cases q with
    | mk a b =>
      rw [List.lookup_cons] at h
      by_cases hk : k = a
      · subst hk
        simp only [beq_self_eq_true] at h
        cases h
        exact List.mem_cons_self _ _
      · simp only [beq_eq_false_iff_ne.2 hk] at h
        exact List.mem_cons_of_mem _ (ih h)

/-- A key occurring in a dict occurs as the key of one of its entries. -/
theorem mem_map_fst {α : Type} {m : List (String × α)} {k : String}
    (h : k ∈ m.map Prod.fst) : ∃ v, (k, v) ∈ m := by
  rcases List.mem_map.1 h with ⟨p, hp, he⟩
  exact ⟨p.2, by cases p; cases he; exact hp⟩

/-- A key of the dict is found by `dict.get`. -/
theorem mem_fst_lookup {α : Type} {m : List (String × α)} {k : String}
    (h : k ∈ m.map Prod.fst) : ∃ v, m.lookup k = some v := by
  induction m with
  | nil => cases h
  | cons q m ih =>
    cases q with
    | mk a b =>
      rcases List.mem_cons.1 h with he | hm
      · exact ⟨b, by simp [List.lookup, he]⟩
      · by_cases hk : k = a
        · exact ⟨b, by simp [List.lookup, hk]⟩
        · rcases ih hm with ⟨v, hv⟩
          exact ⟨v, by simp [List.lookup, beq_eq_false_iff_ne.2 hk, hv]⟩

/-- A successful `dict.get` makes the `in` test succeed. -/
theorem lookup_contains {α : Type} {m : List (String × α)} {k : String} {v : α}
    (h : m.lookup k = some v) : (m.map Prod.fst).contains k = true := by
  have hm : ∃ x, (k, x) ∈ m := ⟨v, lookup_mem h⟩
  simpa using hm

/-- A failing `dict.get` makes the `in` test fail. -/
theorem lookup_none_contains {α : Type} {m : List (String × α)} {k : String}
    (h : m.lookup k = none) : (m.map Prod.fst).contains k = false := by
  by_contra hc
  have : k ∈ m.map Prod.fst := by
    simpa using Bool.of_not_eq_false hc
  rcases mem_fst_lookup this with ⟨v, hv⟩
  rw [hv] at h
  cases h

/-- Replacing the binding of `k` in place: looking up `k` finds the new
value, provided `k` was a key. -/
theorem lookup_map_replace_self {α : Type} {m : List (String × α)} {k : String}
    (v : α) (hc : (m.map Prod.fst).contains k = true) :
    (m.map fun p => if p.1 = k then (k, v) else p).lookup k = some v := by
  induction m with
  | nil => cases hc
  | cons p m ih =>
    cases p with
    | mk a b =>
      by_cases hp : a = k
      · subst hp
        rw [List.map_cons, show (if ((a, b) : String × α).1 = a then (a, v)
            else (a, b)) = (a, v) from by simp]
        simp [List.lookup]
      · have hc' : (m.map Prod.fst).contains k = true := by
          rcases (by simpa using hc : k = a ∨ ∃ x, (k, x) ∈ m) with hh | hh
          · exact absurd hh.symm hp
          · simpa using hh
        rw [List.map_cons, show (if ((a, b) : String × α).1 = k then (k, v)
            else (a, b)) = (a, b) from by simp [hp]]
        simpa [List.lookup, beq_eq_false_iff_ne.2 fun hh => hp hh.symm]
          using ih hc'

/-- Replacing the binding of `k` in place: other keys are untouched. -/
theorem lookup_map_replace_other {α : Type} (m : List (String × α))
    {k k' : String} (v : α) (hne : k' ≠ k) :
    (m.map fun p => if p.1 = k then (k, v) else p).lookup k' = m.lookup k' := by
  induction m with
  | nil => rfl
  | cons p m ih =>
    cases p with
    | mk a b =>
      by_cases hp : a = k
      · subst hp
        rw [List.map_cons, show (if ((a, b) : String × α).1 = a then (a, v)
            else (a, b)) = (a, v) from by simp]
        simp [List.lookup, beq_eq_false_iff_ne.2 hne, ih]
      · rw [List.map_cons, show (if ((a, b) : String × α).1 = k then (k, v)
            else (a, b)) = (a, b) from by simp [hp]]
        by_cases hk' : k' = a
        · simp [List.lookup, hk']
        · simp [List.lookup, beq_eq_false_iff_ne.2 hk', ih]

/-- Appending a fresh binding: looking up its key finds it, provided the key
was absent. -/
theorem lookup_append_self {α : Type} {m : List (String × α)} {k : String}
    (v : α) (hc : (m.map Prod.fst).contains k = false) :
    (m ++ [(k, v)]).lookup k = some v := by
  induction m with
  | nil => simp [List.lookup]
  | cons p m ih =>
    cases p with
    | mk a b =>
      have ha : ¬(k = a ∨ ∃ x, (k, x) ∈ m) := by simpa using hc
      push_neg at ha
      have hc' : (m.map Prod.fst).contains k = false := by
        by_contra hcc
        have hex : ∃ x, (k, x) ∈ m := by
          simpa using Bool.of_not_eq_false hcc
        rcases hex with ⟨x, hx⟩
        exact ha.2 x hx
      have hka : (k == a) = false := beq_eq_false_iff_ne.2 ha.1
      simp [List.lookup, hka, ih hc']

/-- Appending a fresh binding: other keys are untouched. -/
theorem lookup_append_other {α : Type} (m : List (String × α)) {k k' : String}
    (v : α) (hne : k' ≠ k) : (m ++ [(k, v)]).lookup k' = m.lookup k' := by
  induction m with
  | nil => simp [List.lookup, beq_eq_false_iff_ne.2 hne]
  | cons p m ih =>
    cases p with
    | mk a b =>
      by_cases hk' : k' = a
      · simp [List.lookup, hk']
      · simp [List.lookup, beq_eq_false_iff_ne.2 hk', ih]

/-- Looking up the key just written by `d[k] = v`. -/
theorem dictSet_lookup_self {α : Type} (m : List (String × α)) (k : String)
    (v : α) : (dictSet m k v).lookup k = some v := by
  unfold dictSet
  split
  · rename_i hc
    exact lookup_map_replace_self v hc
  · rename_i hc
    exact lookup_append_self v (Bool.of_not_eq_true hc)

/-- Looking up a different key after `d[k] = v` sees the old dict. -/
theorem dictSet_lookup_other {α : Type} {m : List (String × α)} {k k' : String}
    {v : α} (hne : k' ≠ k) : (dictSet m k v).lookup k' = m.lookup k' := by
  unfold dictSet
  split
  · exact lookup_map_replace_other m v hne
  · exact lookup_append_other m v hne

/-- `float` raises only `ValueError` or `TypeError`. -/
theorem pyFloat_err {v : Json} {e : PyErr} (h : pyFloat v = .error e) :
    e = .valueError ∨ e = .typeError := by
  cases v with
  | null => exact Or.inr (Except.error.inj h).symm
  | bool b => cases h
  | num q => cases h
  | str s =>
    simp only [pyFloat] at h
    cases hp : parseFloat? s with
    | some q => rw [hp] at h; cases h
    | none => rw [hp] at h; exact Or.inl (Except.error.inj h).symm
  | arr xs => exact Or.inr (Except.error.inj h).symm
  | obj fs => exact Or.inr (Except.error.inj h).symm

/-- With the tracked code absent from the valuta table, the loop body skips
the code and leaves the rates dict unchanged. -/
theorem parseRatesStep_absent {ds valute : List (String × Json)} {c : String}
    (t : ℕ) (rates : List (String × CurrencyRate))
    (hv : ds.lookup "Valute" = some (.obj valute))
    (hc : valute.lookup c = none) :
    parseRatesStep (.obj ds) t rates c = .ok rates := by
  simp only [parseRatesStep, Json.getD, Json.pyContains, hv, Option.getD,
    lookup_none_contains hc, bind, Except.bind, pure, Except.pure]
  rfl

/-- With the tracked code present, the loop body reduces to extracting and
converting `Value` and `Previous` from its entry. -/
theorem parseRatesStep_present {ds valute : List (String × Json)} {c : String}
    {e : Json} (t : ℕ) (rates : List (String × CurrencyRate))
    (hv : ds.lookup "Valute" = some (.obj valute))
    (hc : valute.lookup c = some e) :
    parseRatesStep (.obj ds) t rates c
      = (do
          let cur ← pyFloat (← e.getItem "Value")
          let prev ← pyFloat (← e.getItem "Previous")
          return dictSet rates c (CurrencyRate.make (c ++ "/RUB") cur (cur - prev)
            (if prev ≠ 0 then (cur - prev) / prev * 100 else 0) t)) := by
  simp only [parseRatesStep, Json.getD, Json.pyContains, Json.getItem, hv, hc,
    Option.getD, lookup_contains hc, bind, Except.bind, pure, Except.pure]
  rfl

/-- With a well-formed entry, the loop body stores exactly the record built
from the converted `Value` and `Previous`. -/
theorem parseRatesStep_wfEntry {ds valute fs : List (String × Json)}
    {c : String} {v p : Json} {vq pq : ℚ} (t : ℕ)
    (rates : List (String × CurrencyRate))
    (hv : ds.lookup "Valute" = some (.obj valute))
    (hlk : valute.lookup c = some (.obj fs))
    (hval : fs.lookup "Value" = some v) (hvq : pyFloat v = .ok vq)
    (hprev : fs.lookup "Previous" = some p) (hpq : pyFloat p = .ok pq) :
    parseRatesStep (.obj ds) t rates c
      = .ok (dictSet rates c (CurrencyRate.make (c ++ "/RUB") vq (vq - pq)
          (if pq ≠ 0 then (vq - pq) / pq * 100 else 0) t)) := by
  rw [parseRatesStep_present t rates hv hlk]
  simp only [Json.getItem, hval, hvq, hprev, hpq, bind, Except.bind, pure,
    Except.pure]

/-- The `_parse_rates` loop over a duplicate-free code list, when every code
is well-formed or absent: it succeeds, leaves keys outside the list
untouched, and stores the expected record for every present code. -/
theorem parseRates_fold_wf {ds valute : List (String × Json)} (t : ℕ)
    (hv : ds.lookup "Valute" = some (.obj valute)) :
    ∀ (L : List String), L.Nodup → (∀ c ∈ L, entryWF valute c) →
      ∀ acc, ∃ res,
        L.foldlM (parseRatesStep (.obj ds) t) acc = .ok res
        ∧ (∀ k, k ∉ L → res.lookup k = acc.lookup k)
        ∧ (∀ c ∈ L, ∀ fs v p vq pq,
            valute.lookup c = some (.obj fs) →
            fs.lookup "Value" = some v → pyFloat v = .ok vq →
            fs.lookup "Previous" = some p → pyFloat p = .ok pq →
            res.lookup c = some (CurrencyRate.make (c ++ "/RUB") vq (vq - pq)
              (if pq ≠ 0 then (vq - pq) / pq * 100 else 0) t)) := by
  intro L
  induction L with
  | nil =>
    intro _ _ acc
    exact ⟨acc, rfl, fun k _ => rfl, fun c hc => absurd hc (List.not_mem_nil c)⟩
  | cons c0 L ih =>
    intro hnd hwf acc
    have hnd' := (List.nodup_cons.1 hnd).2
    have hc0nin := (List.nodup_cons.1 hnd).1
    rcases hwf c0 (List.mem_cons_self _ _) with habs |
        ⟨fs, vq, pq, hlk, ⟨v, hv1, hv2⟩, ⟨p, hp1, hp2⟩⟩
    · have hstep := parseRatesStep_absent t acc hv habs
      rcases ih hnd' (fun c hc => hwf c (List.mem_cons_of_mem _ hc)) acc with
        ⟨res, hfold, hpres, hprop⟩
      refine ⟨res, ?_, ?_, ?_⟩
      · rw [List.foldlM_cons, hstep]
        exact hfold
      · intro k hk
        exact hpres k fun hh => hk (List.mem_cons_of_mem _ hh)
      · intro c hc fs' v' p' vq' pq' h1 h2 h3 h4 h5
        rcases List.mem_cons.1 hc with rfl | hc'
        · rw [habs] at h1
          cases h1
        · exact hprop c hc' fs' v' p' vq' pq' h1 h2 h3 h4 h5
    · have hstep := parseRatesStep_wfEntry t acc hv hlk hv1 hv2 hp1 hp2
      rcases ih hnd' (fun c hc => hwf c (List.mem_cons_of_mem _ hc))
          (dictSet acc c0 (CurrencyRate.make (c0 ++ "/RUB") vq (vq - pq)
            (if pq ≠ 0 then (vq - pq) / pq * 100 else 0) t)) with
        ⟨res, hfold, hpres, hprop⟩
      refine ⟨res, ?_, ?_, ?_⟩
      · rw [List.foldlM_cons, hstep]
        exact hfold
      · intro k hk
        have hkc0 : k ≠ c0 := fun hh => hk (hh ▸ List.mem_cons_self _ _)
        rw [hpres k fun hh => hk (List.mem_cons_of_mem _ hh),
          dictSet_lookup_other hkc0]
      · intro c hc fs' v' p' vq' pq' h1 h2 h3 h4 h5
        rcases List.mem_cons.1 hc with rfl | hc'
        · rw [hlk] at h1
          have hfs : fs = fs' := Json.obj.inj (Option.some.inj h1)
          subst hfs
          have hvv : v = v' := Option.some.inj (hv1.symm.trans h2)
          subst hvv
          have hq1 : vq = vq' := Except.ok.inj (hv2.symm.trans h3)
          subst hq1
          have hpp : p = p' := Option.some.inj (hp1.symm.trans h4)
          subst hpp
          have hq2 : pq = pq' := Except.ok.inj (hp2.symm.trans h5)
          subst hq2
          rw [hpres _ hc0nin, dictSet_lookup_self]
        · exact hprop c hc' fs' v' p' vq' pq' h1 h2 h3 h4 h5

/-- A malformed entry makes the loop body raise `KeyError` (missing field) or
`ValueError` (non-numeric string). -/
theorem parseRatesStep_badEntry {ds valute : List (String × Json)} {c : String}
    {e : Json} (t : ℕ) (rates : List (String × CurrencyRate))
    (hv : ds.lookup "Valute" = some (.obj valute))
    (hlk : valute.lookup c = some e) (hbad : entryBad e) :
    parseRatesStep (.obj ds) t rates c = .error .keyError
    ∨ parseRatesStep (.obj ds) t rates c = .error .valueError := by
  rcases hbad with ⟨fs, rfl, hb⟩
  rw [parseRatesStep_present t rates hv hlk]
  rcases hb with h1 | ⟨v, h1, h2⟩ | ⟨v, vq, h1, h2, h3⟩
  · left
    simp [Json.getItem, h1, bind, Except.bind]
  · right
    simp [Json.getItem, h1, h2, bind, Except.bind]
  · rcases h3 with h3 | ⟨p, h3, h4⟩
    · left
      simp [Json.getItem, h1, h2, h3, bind, Except.bind]
    · right
      simp [Json.getItem, h1, h2, h3, h4, bind, Except.bind]

/-- On a tame entry the loop body either succeeds or raises `KeyError` or
`ValueError` — never anything the parser's handlers would miss. -/
theorem parseRatesStep_tame_cases {ds valute : List (String × Json)}
    {c : String} {e : Json} (t : ℕ) (rates : List (String × CurrencyRate))
    (hv : ds.lookup "Valute" = some (.obj valute))
    (hlk : valute.lookup c = some e) (htame : entryTame e) :
    (∃ res, parseRatesStep (.obj ds) t rates c = .ok res)
    ∨ parseRatesStep (.obj ds) t rates c = .error .keyError
    ∨ parseRatesStep (.obj ds) t rates c = .error .valueError := by
  rcases htame with ⟨fs, rfl, h1, h2⟩
  rw [parseRatesStep_present t rates hv hlk]
  cases hval : fs.lookup "Value" with
  | none =>
    right; left
    simp [Json.getItem, hval, bind, Except.bind]
  | some v =>
    cases hpf : pyFloat v with
    | error e' =>
      rcases pyFloat_err hpf with rfl | rfl
      · right; right
        simp [Json.getItem, hval, hpf, bind, Except.bind]
      · exact absurd hpf (h1 v hval)
    | ok vq =>
      cases hprev : fs.lookup "Previous" with
      | none =>
        right; left
        simp [Json.getItem, hval, hpf, hprev, bind, Except.bind]
      | some p =>
        cases hpp : pyFloat p with
        | error e' =>
          rcases pyFloat_err hpp with rfl | rfl
          · right; right
            simp [Json.getItem, hval, hpf, hprev, hpp, bind, Except.bind]
          · exact absurd hpp (h2 p hprev)
        | ok pq =>
          left
          exact ⟨dictSet rates c (CurrencyRate.make (c ++ "/RUB") vq (vq - pq)
              (if pq ≠ 0 then (vq - pq) / pq * 100 else 0) t),
            by simp only [Json.getItem, hval, hpf, hprev, hpp, bind,
              Except.bind, pure, Except.pure]⟩

/-- The `_parse_rates` loop over any code list whose entries are tame or
absent, one of which is malformed: the whole fold raises `KeyError` or
`ValueError`. -/
theorem parseRates_fold_bad {ds valute : List (String × Json)} (t : ℕ)
    (hv : ds.lookup "Valute" = some (.obj valute)) :
    ∀ (L : List String) (acc : List (String × CurrencyRate)),
      (∀ c ∈ L, valute.lookup c = none
        ∨ ∃ e, valute.lookup c = some e ∧ entryTame e) →
      (∃ c ∈ L, ∃ e, valute.lookup c = some e ∧ entryBad e) →
      L.foldlM (parseRatesStep (.obj ds) t) acc = .error .keyError
      ∨ L.foldlM (parseRatesStep (.obj ds) t) acc = .error .valueError := by
  intro L
  induction L with
  | nil =>
    intro acc _ hbad
    rcases hbad with ⟨c, hc, _⟩
    exact absurd hc (List.not_mem_nil c)
  | cons c0 L ih =>
    intro acc htame hbad
    cases hstep : parseRatesStep (.obj ds) t acc c0 with
    | error e0 =>
      have he0 : e0 = .keyError ∨ e0 = .valueError := by
        rcases htame c0 (List.mem_cons_self _ _) with habs | ⟨e, hlk, htm⟩
        · rw [parseRatesStep_absent t acc hv habs] at hstep
          cases hstep
        · rcases parseRatesStep_tame_cases t acc hv hlk htm with
            ⟨r, hr⟩ | hr | hr
          · rw [hr] at hstep
            cases hstep
          · rw [hr] at hstep
            exact Or.inl (Except.error.inj hstep).symm
          · rw [hr] at hstep
            exact Or.inr (Except.error.inj hstep).symm
      rcases he0 with rfl | rfl
      · left
        rw [List.foldlM_cons, hstep]
        rfl
      · right
        rw [List.foldlM_cons, hstep]
        rfl
    | ok acc1 =>
      rcases hbad with ⟨c, hcmem, e, hlk, hbad⟩
      rcases List.mem_cons.1 hcmem with rfl | hctail
      · rcases parseRatesStep_badEntry t acc hv hlk hbad with hr | hr <;>
          · rw [hr] at hstep
            cases hstep
      · rcases ih acc1 (fun c' hc' => htame c' (List.mem_cons_of_mem _ hc'))
            ⟨c, hctail, e, hlk, hbad⟩ with h | h
        · left
          rw [List.foldlM_cons, hstep]
          exact h
        · right
          rw [List.foldlM_cons, hstep]
          exact h

/-- If any of the three required columns is absent, `columnIndices` raises
`ValueError`. -/
theorem columnIndices_missing (cols : List Json)
    (h : Json.str "SECID" ∉ cols ∨ Json.str "LAST" ∉ cols ∨ Json.str "OPEN" ∉ cols) :
    columnIndices (.arr cols) = .error .valueError := by
  rcases h with h | h | h
  · simp [columnIndices, listIndex_not_mem h, bind, Except.bind]
  · rcases listIndex_ok_or cols (.str "SECID") with ⟨i, hi⟩ | hi <;>
      simp [columnIndices, hi, listIndex_not_mem h, bind, Except.bind]
  · rcases listIndex_ok_or cols (.str "SECID") with ⟨i, hi⟩ | hi <;>
      rcases listIndex_ok_or cols (.str "LAST") with ⟨j, hj⟩ | hj <;>
      simp [columnIndices, hi, hj, listIndex_not_mem h, bind, Except.bind]

/-- A successful loop iteration of `_parse_rates` leaves the rates dict
unchanged (code absent) or stores one record under the tracked code. -/
theorem parseRatesStep_ok_shape {data : Json} {t : ℕ}
    {rates : List (String × CurrencyRate)} {code : String}
    {res : List (String × CurrencyRate)}
    (h : parseRatesStep data t rates code = .ok res) :
    res = rates ∨ ∃ r, res = dictSet rates code r := by
  simp only [parseRatesStep, bind, Except.bind, pure, Except.pure] at h
  repeat' split at h
  any_goals cases h
  all_goals first
    | exact Or.inl rfl
    | exact Or.inr ⟨_, rfl⟩

/-- Keys produced by the `_parse_rates` loop over a code list: every key of a
successful fold is an initial key or one of the processed codes. -/
theorem parseRates_fold_keys (data : Json) (t : ℕ) :
    ∀ (L : List String) (acc res : List (String × CurrencyRate)),
      L.foldlM (parseRatesStep data t) acc = .ok res →
      ∀ k ∈ res.map Prod.fst, k ∈ acc.map Prod.fst ∨ k ∈ L := by
  intro L
  induction L with
  | nil =>
    intro acc res h k hk
    cases h
    exact Or.inl hk
  | cons c L ih =>
    intro acc res h k hk
    rw [List.foldlM_cons] at h
    cases hstep : parseRatesStep data t acc c with
    | error e =>
      rw [hstep] at h
      cases h
    | ok acc' =>
      rw [hstep] at h
      simp only [bind, Except.bind] at h
      rcases ih acc' res h k hk with hin | hin
      · rcases parseRatesStep_ok_shape hstep with rfl | ⟨r, rfl⟩
        · exact Or.inl hin
        · rcases mem_map_fst hin with ⟨v, hv⟩
          rcases dictSet_mem hv with hv' | hv'
          · exact Or.inl (List.mem_map.2 ⟨(k, v), hv', rfl⟩)
          · cases hv'
            exact Or.inr (List.mem_cons_self _ _)
      · exact Or.inr (List.mem_cons_of_mem _ hin)

/-- Every key of a successful `_parse_rates` result is a tracked currency. -/
theorem parseRates_keys {data : Json} {t : ℕ}
    {rates : List (String × CurrencyRate)} (h : parseRates data t = .ok rates) :
    ∀ k ∈ rates.map Prod.fst, k ∈ tracked_currencies := by
  unfold parseRates at h
  cases hraw : parseRatesRaw data t with
  | ok raw =>
    rw [hraw] at h
    cases h
    intro k hk
    rcases parseRates_fold_keys data t tracked_currencies [] rates hraw k hk with hin | hin
    · cases hin
    · exact hin
  | error e =>
    rw [hraw] at h
    cases e <;> simp_all

/-- A Python value with a numeric interpretation converts with `float` to
exactly that number. -/
theorem asNum_pyFloat {j : Json} {v : ℚ} (h : j.asNum? = some v) :
    pyFloat j = .ok v := by
  cases j with
  | null => simp [Json.asNum?] at h
  | bool b => simp only [Json.asNum?] at h; cases h; rfl
  | num q => simp only [Json.asNum?] at h; cases h; rfl
  | str s => simp [Json.asNum?] at h
  | arr xs => simp [Json.asNum?] at h
  | obj fs => simp [Json.asNum?] at h

/-- A true `x > q` comparison exhibits the numeric value of `x`. -/
theorem pyGt_ok_true {j : Json} {q : ℚ} (h : pyGt j q = .ok true) :
    ∃ v, j.asNum? = some v ∧ q < v := by
  unfold pyGt at h
  cases hn : j.asNum? with
  | none => rw [hn] at h; cases h
  | some v =>
    rw [hn] at h
    refine ⟨v, rfl, ?_⟩
    exact of_decide_eq_true (Except.ok.inj h)

/-- An accepted row emits a quote whose ticker is tracked, whose price is
positive, and whose volume is the hard-coded zero. -/
theorem rowResult_ok_some {item : Json} {s l o t : ℕ} {p : String × StockData}
    (h : rowResult item s l o t = .ok (some p)) :
    p.1 ∈ popular_tickers ∧ 0 < p.2.price ∧ p.2.volume = 0 := by
  simp only [rowResult, bind, Except.bind, pure, Except.pure] at h
  cases hlen : pyLen item with
  | error e => simp only [hlen] at h; cases h
  | ok n =>
    simp only [hlen] at h
    by_cases hn : n > max s (max l o)
    · rw [if_pos hn] at h
      cases hts : pyIndexNat item s with
      | error e => simp only [hts] at h; cases h
      | ok ticker =>
        simp only [hts] at h
        cases htl : pyIndexNat item l with
        | error e => simp only [htl] at h; cases h
        | ok last_price =>
          simp only [htl] at h
          cases hto : pyIndexNat item o with
          | error e => simp only [hto] at h; cases h
          | ok open_price =>
            simp only [hto] at h
            cases ticker with
            | null => rw [if_neg (by simp)] at h; cases h
            | bool b => rw [if_neg (by simp)] at h; cases h
            | num q => rw [if_neg (by simp)] at h; cases h
            | arr xs => rw [if_neg (by simp)] at h; cases h
            | obj fs => rw [if_neg (by simp)] at h; cases h
            | str sname =>
              by_cases htr : popular_tickers.contains sname = true
                  ∧ last_price ≠ Json.null ∧ open_price ≠ Json.null
              · rw [if_pos htr] at h
                cases hgt : pyGt last_price 0 with
                | error e => simp only [hgt] at h; cases h
                | ok b =>
                  simp only [hgt] at h
                  cases b with
                  | false => rw [if_neg (by simp)] at h; cases h
                  | true =>
                    rw [if_pos rfl] at h
                    rcases pyGt_ok_true hgt with ⟨v, hv, hvpos⟩
                    cases hgo : pyGt open_price 0 with
                    | error e => simp only [hgo] at h; cases h
                    | ok b2 =>
                      simp only [hgo] at h
                      have hfin : ∀ (cp price : ℚ),
                          pyFloat last_price = .ok price →
                          (if price < 0 then (Except.error .valueError :
                              Except PyErr (Option (String × StockData)))
                            else .ok (some (sname,
                              { ticker := sname, price := price,
                                change_percent := roundTo 2 cp, volume := 0,
                                timestamp := t }))) = .ok (some p) →
                          p.1 ∈ popular_tickers ∧ 0 < p.2.price ∧ p.2.volume = 0 := by
                        intro cp price hpf hh
                        by_cases hneg : price < 0
                        · rw [if_pos hneg] at hh; cases hh
                        · rw [if_neg hneg] at hh
                          cases hh
                          have hpv : price = v := by
                            have hfl := asNum_pyFloat hv
                            rw [hfl] at hpf
                            exact (Except.ok.inj hpf).symm
                          refine ⟨by simpa using htr.1, ?_, rfl⟩
                          simpa [hpv] using hvpos
                      cases b2 with
                      | false =>
                        rw [if_neg (by simp)] at h
                        cases hpf : pyFloat last_price with
                        | error e => simp only [hpf] at h; cases h
                        | ok price =>
                          simp only [hpf] at h
                          exact hfin 0 price hpf h
                      | true =>
                        rw [if_pos rfl] at h
                        cases hlq : pyNumVal last_price with
                        | error e => simp only [hlq] at h; cases h
                        | ok lq =>
                          simp only [hlq] at h
                          cases hoq : pyNumVal open_price with
                          | error e => simp only [hoq] at h; cases h
                          | ok oq =>
                            simp only [hoq] at h
                            cases hpf : pyFloat last_price with
                            | error e => simp only [hpf] at h; cases h
                            | ok price =>
                              simp only [hpf] at h
                              exact hfin ((lq - oq) / oq * 100) price hpf h
              · rw [if_neg htr] at h
                cases h
    · rw [if_neg hn] at h
      cases h

/-- One row-loop iteration only adds entries that satisfy the quote
invariant. -/
theorem processRow_mem {s l o t : ℕ} {stocks : List (String × StockData)}
    {item : Json} {p : String × StockData}
    (hp : p ∈ processRow s l o t stocks item) :
    p ∈ stocks ∨ (p.1 ∈ popular_tickers ∧ 0 < p.2.price ∧ p.2.volume = 0) := by
  unfold processRow at hp
  cases hr : rowResult item s l o t with
  | error e => rw [hr] at hp; exact Or.inl hp
  | ok oo =>
    cases oo with
    | none => rw [hr] at hp; exact Or.inl hp
    | some q =>
      cases q with
      | mk tick sd =>
        rw [hr] at hp
        rcases dictSet_mem hp with hm | hm
        · exact Or.inl hm
        · right
          rw [hm]
          exact rowResult_ok_some hr

/-- The row fold preserves the quote invariant. -/
theorem foldl_processRow_mem (s l o t : ℕ) :
    ∀ (items : List Json) (acc : List (String × StockData)),
      (∀ p ∈ acc, p.1 ∈ popular_tickers ∧ 0 < p.2.price ∧ p.2.volume = 0) →
      ∀ p ∈ items.foldl (processRow s l o t) acc,
        p.1 ∈ popular_tickers ∧ 0 < p.2.price ∧ p.2.volume = 0 := by
  intro items
  induction items with
  | nil => intro acc hacc p hp; exact hacc p hp
  | cons item items ih =>
    intro acc hacc p hp
    rw [List.foldl_cons] at hp
    refine ih _ ?_ p hp
    intro q hq
    rcases processRow_mem hq with hm | hm
    · exact hacc q hm
    · exact hm

/-- Every entry of a parsed market-data batch satisfies the quote
invariant. -/
theorem parseStocksResponse_mem {data : Json} {t : ℕ} {p : String × StockData}
    (hp : p ∈ parseStocksResponse data t) :
    p.1 ∈ popular_tickers ∧ 0 < p.2.price ∧ p.2.volume = 0 := by
  unfold parseStocksResponse at hp
  split at hp
  · exact absurd hp (List.not_mem_nil p)
  · exact foldl_processRow_mem _ _ _ _ _ [] (fun q hq => absurd hq (List.not_mem_nil q)) p hp

/-- Every entry of a `get_stock_prices` result satisfies the quote
invariant. -/
theorem getStockPrices_mem {outcome : FetchOutcome} {t : ℕ}
    {p : String × StockData} (hp : p ∈ getStockPrices outcome t) :
    p.1 ∈ popular_tickers ∧ 0 < p.2.price ∧ p.2.volume = 0 := by
  unfold getStockPrices at hp
  repeat' split at hp
  all_goals first
    | exact absurd hp (List.not_mem_nil p)
    | exact parseStocksResponse_mem hp

/-- The three ways a `get_rates` call can end: an unconditional empty mapping
(bad status or undecodable body), the cached-or-empty fallback, or a parse
result that also becomes the new cache. -/
theorem getRates_cases (st : CBRState) (outcome : FetchOutcome) (t : ℕ) :
    getRates st outcome t = ([], st)
    ∨ getRates st outcome t = (st.cache.getD [], st)
    ∨ (∃ data rates, outcome = .response 200 (.ok data)
        ∧ parseRates data t = .ok rates
        ∧ getRates st outcome t
          = (rates, { cache := some rates, cacheTimestamp := some t })) := by
  cases outcome with
  | transportError => exact Or.inr (Or.inl rfl)
  | response status body =>
    by_cases hs : status ≠ 200
    · left; simp [getRates, hs]
    · push_neg at hs
      subst hs
      cases body with
      | error e => left; rfl
      | ok data =>
        cases hp : parseRates data t with
        | ok rates =>
          right; right
          exact ⟨data, rates, rfl, hp, by simp [getRates, hp]⟩
        | error e =>
          right; left
          simp [getRates, hp]

/-- Under the cache invariant, every key of a `get_rates` result is
tracked. -/
theorem getRates_keys (st : CBRState) (outcome : FetchOutcome) (t : ℕ)
    (hcache : ∀ rates, st.cache = some rates →
      ∀ k ∈ rates.map Prod.fst, k ∈ tracked_currencies) :
    ∀ k ∈ (getRates st outcome t).1.map Prod.fst, k ∈ tracked_currencies := by
  intro k hk
  rcases getRates_cases st outcome t with hc | hc | ⟨data, rates, ho, hp, hc⟩
  · rw [hc] at hk
    cases hk
  · rw [hc] at hk
    cases hcc : st.cache with
    | none => rw [hcc] at hk; cases hk
    | some rates => rw [hcc] at hk; exact hcache rates hcc k hk
  · rw [hc] at hk
    exact parseRates_keys hp k hk

/-- Under the cache invariant, the cache left by `get_rates` again satisfies
the invariant. -/
theorem getRates_cache_keys (st : CBRState) (outcome : FetchOutcome) (t : ℕ)
    (hcache : ∀ rates, st.cache = some rates →
      ∀ k ∈ rates.map Prod.fst, k ∈ tracked_currencies) :
    ∀ rates, (getRates st outcome t).2.cache = some rates →
      ∀ k ∈ rates.map Prod.fst, k ∈ tracked_currencies := by
  intro rates hr
  rcases getRates_cases st outcome t with hc | hc | ⟨data, rates', ho, hp, hc⟩
  · rw [hc] at hr
    exact hcache rates hr
  · rw [hc] at hr
    exact hcache rates hr
  · rw [hc] at hr
    cases hr
    exact parseRates_keys hp

/-! ### Concrete evaluations -/

/-- Rounding `91.5` to 4 digits gives `91.5`. -/
theorem validate_rate_usd : validate_positive_number ((183 : ℚ) / 2) = 183 / 2 := by
  unfold validate_positive_number roundTo roundHalfEven
  norm_num

/-- Rounding the change `0.2` to 4 digits gives `0.2`. -/
theorem validate_change_usd :
    validate_positive_number ((183 : ℚ) / 2 - 913 / 10) = 1 / 5 := by
  unfold validate_positive_number roundTo roundHalfEven
  norm_num

/-- Rounding the percent change `200/913 ≈ 0.21906` to 4 digits gives
`0.2191`. -/
theorem validate_percent_usd :
    validate_positive_number (((183 : ℚ) / 2 - 913 / 10) / (913 / 10) * 100)
      = 2191 / 10000 := by
  unfold validate_positive_number roundTo roundHalfEven
  norm_num

/-- `_parse_rates` on the sample payload: one record, for `USD`. -/
theorem parseRates_usd : parseRates usdPayload 0 = .ok [("USD", usdRate)] := by
  have hstruct : parseRates usdPayload 0
      = .ok [("USD", CurrencyRate.make ("USD" ++ "/RUB") (183 / 2)
          (183 / 2 - 913 / 10)
          (if (913 / 10 : ℚ) ≠ 0 then (183 / 2 - 913 / 10) / (913 / 10) * 100 else 0)
          0)] := rfl
  rw [hstruct, if_pos (by norm_num : (913 / 10 : ℚ) ≠ 0)]
  simp only [CurrencyRate.make, usdRate, Except.ok.injEq, List.cons.injEq,
    Prod.mk.injEq, CurrencyRate.mk.injEq, and_true, true_and]
  exact ⟨rfl, validate_rate_usd, validate_change_usd, validate_percent_usd⟩

/-- `get_rates` on a fresh service receiving the sample payload caches and
returns the single `USD` record. -/
theorem getRates_usd :
    getRates CBRState.init (.response 200 (.ok usdPayload)) 0
      = ([("USD", usdRate)],
         { cache := some [("USD", usdRate)], cacheTimestamp := some 0 }) := by
  simp [getRates, parseRates_usd]

/-- Rounding the `SBER` percent change `100` to 2 digits gives `100`. -/
theorem roundTo_sber : roundTo 2 (((2 : ℚ) - 1) / 1 * 100) = 100 := by
  unfold roundTo roundHalfEven
  norm_num

/-- The row loop body evaluated at the `SBER` row of the sample market-data
payload. -/
theorem rowResult_sber :
    rowResult (.arr [.str "SBER", .num 2, .num 1]) 0 1 2 0
      = .ok (some ("SBER", sberQuote)) := by
  have hstruct : rowResult (.arr [.str "SBER", .num 2, .num 1]) 0 1 2 0
      = .ok (some ("SBER",
          { ticker := "SBER", price := 2,
            change_percent := roundTo 2 (((2 : ℚ) - 1) / 1 * 100), volume := 0,
            timestamp := 0 })) := rfl
  rw [hstruct, roundTo_sber]
  rfl

/-- `_parse_stocks_response` on the sample market-data payload. -/
theorem parseStocks_sber :
    parseStocksResponse sberPayload 0 = [("SBER", sberQuote)] := by
  have hstruct : parseStocksResponse sberPayload 0
      = processRow 0 1 2 0 [] (.arr [.str "SBER", .num 2, .num 1]) := rfl
  rw [hstruct]
  unfold processRow
  rw [rowResult_sber]
  rfl

/-- `get_stock_prices` on a 200 response with the sample market-data
payload. -/
theorem getStockPrices_sber :
    getStockPrices (.response 200 (.ok sberPayload)) 0 = [("SBER", sberQuote)] := by
  simp [getStockPrices, parseStocks_sber]

/-- Rounding `0` to any number of digits gives `0`. -/
theorem roundTo_zero (n : ℕ) : roundTo n (0 : ℚ) = 0 := by
  unfold roundTo roundHalfEven
  norm_num

/-- The row loop body on the negative-`OPEN` row: the row is accepted and the
percent change is `0`. -/
theorem rowResult_negOpen :
    rowResult (.arr [.str "SBER", .num 100, .num (mkRat (-50) 1)]) 0 1 2 0
      = .ok (some ("SBER",
          { ticker := "SBER", price := 100, change_percent := 0,
            volume := 0, timestamp := 0 })) := by
  have hstruct : rowResult (.arr [.str "SBER", .num 100, .num (mkRat (-50) 1)]) 0 1 2 0
      = .ok (some ("SBER",
          { ticker := "SBER", price := 100,
            change_percent := roundTo 2 (0 : ℚ),
            volume := 0, timestamp := 0 })) := rfl
  rw [hstruct, roundTo_zero]

/-- `_parse_stocks_response` on the negative-`OPEN` payload. -/
theorem parseStocks_negOpen :
    parseStocksResponse negOpenPayload 0
      = [("SBER",
          { ticker := "SBER", price := 100, change_percent := 0,
            volume := 0, timestamp := 0 })] := by
  have hstruct : parseStocksResponse negOpenPayload 0
      = processRow 0 1 2 0 [] (.arr [.str "SBER", .num 100, .num (mkRat (-50) 1)]) := rfl
  rw [hstruct]
  unfold processRow
  rw [rowResult_negOpen]
  rfl

/-- Reading a list object right after writing it. -/
theorem ListHeap.read_write_self (h : ListHeap) (a : ℕ) (v : List String) :
    (h.write a v).read a = v := by
  simp [ListHeap.read, ListHeap.write, List.lookup]

/-- Writing one list object leaves the others unchanged. -/
theorem ListHeap.read_write_other (h : ListHeap) {a a' : ℕ} (v : List String)
    (hne : a' ≠ a) : (h.write a v).read a' = h.read a' := by
  simp [ListHeap.read, ListHeap.write, List.lookup, beq_eq_false_iff_ne.2 hne]

/-- A fresh allocation is placed at the `next` address. -/
theorem ListHeap.alloc_fst (h : ListHeap) (v : List String) :
    (h.alloc v).1 = h.next := rfl

/-- Reading the address just allocated. -/
theorem ListHeap.read_alloc_self (h : ListHeap) (v : List String) :
    (h.alloc v).2.read h.next = v := by
  simp [ListHeap.read, ListHeap.alloc, List.lookup]

/-- Allocation leaves every other address unchanged. -/
theorem ListHeap.read_alloc_other (h : ListHeap) {a : ℕ} (v : List String)
    (hne : a ≠ h.next) : (h.alloc v).2.read a = h.read a := by
  simp [ListHeap.read, ListHeap.alloc, List.lookup, beq_eq_false_iff_ne.2 hne]

/-! ## Claim C1 — fallback behaviour of `CBRService.get_rates`

The claim (and §4.1 of the spec) says the cached mapping is served on HTTP
status ≠ 200 and on JSON-decode failure.  The code does not: lines 72–81 of
`cbr_service.py` return `{}` from inside the `try` block on both of those
paths, without consulting the cache; only the `except` handlers (transport
errors and other exceptions) return `self._cache or {}`. -/

/-- Claim C1, counterexample: with a non-empty cache, an HTTP 500 response
makes `get_rates` return the empty mapping, not the previously cached one. -/
theorem C1_counterexample :
    (getRates cachedState (.response 500 (.ok (.obj []))) 1).1 = []
    ∧ (getRates cachedState (.response 500 (.ok (.obj []))) 1).1
      ≠ cachedState.cache.getD [] := by
  constructor
  · rfl
  · intro h
    rw [show (getRates cachedState (.response 500 (.ok (.obj []))) 1).1 = [] from rfl] at h
    exact List.noConfusion h

/-- Claim C1 (amended): `get_rates` returns the cached-or-empty mapping only
on transport-level errors; on HTTP status ≠ 200 and on body-decode failure it
returns the empty mapping unconditionally, leaving the cache untouched.  It
never raises. -/
theorem C1_amended_thm (st : CBRState) (t status : ℕ) (body : Except Unit Json)
    (e : Unit) :
    getRates st .transportError t = (st.cache.getD [], st)
    ∧ (status ≠ 200 → getRates st (.response status body) t = ([], st))
    ∧ getRates st (.response 200 (.error e)) t = ([], st) := by
  refine ⟨rfl, fun h => ?_, rfl⟩
  simp [getRates, h]

/-- Claim C1, witness: the amended theorem applied to the cached state, a 500
response and a decode failure. -/
theorem C1_witness :
    getRates cachedState .transportError 1
      = (cachedState.cache.getD [], cachedState)
    ∧ getRates cachedState (.response 500 (.ok (.obj []))) 1 = ([], cachedState)
    ∧ getRates cachedState (.response 200 (.error ())) 1 = ([], cachedState) :=
  ⟨(C1_amended_thm cachedState 1 500 (.ok (.obj [])) ()).1,
   (C1_amended_thm cachedState 1 500 (.ok (.obj [])) ()).2.1 (by decide),
   (C1_amended_thm cachedState 1 500 (.ok (.obj [])) ()).2.2⟩

/-! ## Claim C10 — cache replacement on a 200 response

The claim says the cache pair is *unconditionally* replaced by the parse
result whenever a 200 response decodes as JSON.  That is true whenever
`_parse_rates` returns (including the empty mapping of an aborted batch), but
not when it raises: a `TypeError` (e.g. `Value: null`) escapes `_parse_rates`,
is caught by `get_rates`'s `except Exception`, and the cache pair is left
untouched. -/

/-- Claim C10, counterexample: a 200 response whose body decodes as JSON
(`Value` is a list, so `float` raises `TypeError`) leaves the previously
cached mapping and its timestamp in place instead of replacing them. -/
theorem C10_counterexample :
    (getRates cachedState (.response 200 (.ok listValuePayload)) 1).2.cache
      = cachedState.cache
    ∧ (getRates cachedState (.response 200 (.ok listValuePayload)) 1).2.cacheTimestamp
      ≠ some 1 := by
  constructor
  · rfl
  · intro h
    rw [show (getRates cachedState (.response 200 (.ok listValuePayload)) 1).2.cacheTimestamp
        = some 0 from rfl] at h
    simp at h

/-- Claim C10 (amended): on a 200 response decoding as JSON, the cache pair is
replaced wholesale by the parse result whenever `_parse_rates` returns —
including the empty mapping produced when a malformed entry aborts the batch,
which destroys any previously cached mapping — but when parsing raises (a
value `float` rejects with `TypeError`, such as `null` or a list), the state
is left unchanged and the previous cache (or the empty mapping) is returned. -/
theorem C10_amended_thm (st : CBRState) (data : Json) (t : ℕ) :
    (∀ rates, parseRates data t = .ok rates →
      getRates st (.response 200 (.ok data)) t
        = (rates, { cache := some rates, cacheTimestamp := some t }))
    ∧ (∀ e, parseRates data t = .error e →
      getRates st (.response 200 (.ok data)) t = (st.cache.getD [], st)) := by
  constructor
  · intro rates h
    simp [getRates, h]
  · intro e h
    simp [getRates, h]

/-- Claim C10, witness: a payload whose `USD` entry lacks `Value` aborts the
batch (`KeyError`), and the resulting empty mapping overwrites the previously
cached one; a payload with a list `Value` raises and leaves the cache
alone. -/
theorem C10_witness :
    getRates cachedState (.response 200 (.ok missingValuePayload)) 1
      = ([], { cache := some [], cacheTimestamp := some 1 })
    ∧ getRates cachedState (.response 200 (.ok listValuePayload)) 1
      = (cachedState.cache.getD [], cachedState) :=
  ⟨(C10_amended_thm cachedState missingValuePayload 1).1 [] (by rfl),
   (C10_amended_thm cachedState listValuePayload 1).2 .typeError (by rfl)⟩

/-! ## Claim C5 — QuoteAdapter error handling -/

/-- Claim C5: for QuoteAdapter parsing, a missing required column (`SECID`,
`LAST`, `OPEN`) empties the whole batch; otherwise the result is the fold of
the per-row processor over the rows, and a row whose processing raises is
skipped without touching the rows already accumulated; and `get_stock_prices`
returns an empty mapping (no cache fallback exists) on non-200 status and on
any transport or body-decode error. -/
theorem C5_thm :
    (∀ (ds md : List (String × Json)) (cols : List Json) (t : ℕ),
      ds.lookup "marketdata" = some (.obj md) →
      md.lookup "columns" = some (.arr cols) →
      (Json.str "SECID" ∉ cols ∨ Json.str "LAST" ∉ cols ∨ Json.str "OPEN" ∉ cols) →
      parseStocksResponse (.obj ds) t = [])
    ∧ (∀ (ds md : List (String × Json)) (cols items : List Json) (s l o t : ℕ),
      ds.lookup "marketdata" = some (.obj md) →
      md.lookup "columns" = some (.arr cols) →
      md.lookup "data" = some (.arr items) →
      columnIndices (.arr cols) = .ok (s, l, o) →
      parseStocksResponse (.obj ds) t = items.foldl (processRow s l o t) [])
    ∧ (∀ (s l o t : ℕ) (stocks : List (String × StockData)) (item : Json) (e : PyErr),
      rowResult item s l o t = .error e →
      processRow s l o t stocks item = stocks)
    ∧ (∀ (t status : ℕ) (body : Except Unit Json) (e : Unit),
      getStockPrices .transportError t = []
      ∧ (status ≠ 200 → getStockPrices (.response status body) t = [])
      ∧ getStockPrices (.response 200 (.error e)) t = []) := by
  refine ⟨?_, ?_, ?_, ?_⟩
  · intro ds md cols t hmd hcols hmiss
    simp [parseStocksResponse, Json.getD, hmd, hcols, columnIndices_missing cols hmiss,
      bind, Except.bind]
  · intro ds md cols items s l o t hmd hcols hdata hidx
    simp [parseStocksResponse, Json.getD, hmd, hcols, hdata, hidx, pyIterate,
      bind, Except.bind, pure, Except.pure]
  · intro s l o t stocks item e h
    simp [processRow, h]
  · intro t status body e
    refine ⟨rfl, fun h => ?_, rfl⟩
    simp [getStockPrices, h]

/-- Claim C5, witness: the missing-`OPEN` payload parses to the empty dict;
the `SBER` payload parses to the fold over its single row; a non-list row
(`5`) raises `TypeError` (from `len`) and is skipped; and a 500 response, a
transport error and a decode failure each yield the empty dict. -/
theorem C5_witness :
    parseStocksResponse missingColumnPayload 1 = []
    ∧ parseStocksResponse sberPayload 1
      = [Json.arr [.str "SBER", .num 2, .num 1]].foldl (processRow 0 1 2 1) []
    ∧ processRow 0 1 2 1 [] (.num 5) = []
    ∧ getStockPrices .transportError 1 = []
    ∧ getStockPrices (.response 500 (.ok sberPayload)) 1 = []
    ∧ getStockPrices (.response 200 (.error ())) 1 = [] :=
  ⟨C5_thm.1 [("marketdata", .obj
      [("columns", .arr [.str "SECID", .str "LAST"]),
       ("data", .arr [.arr [.str "SBER", .num 2]])])]
      [("columns", .arr [.str "SECID", .str "LAST"]),
       ("data", .arr [.arr [.str "SBER", .num 2]])]
      [.str "SECID", .str "LAST"] 1 rfl rfl (by decide),
   C5_thm.2.1 [("marketdata", .obj
      [("columns", .arr [.str "SECID", .str "LAST", .str "OPEN"]),
       ("data", .arr [.arr [.str "SBER", .num 2, .num 1]])])]
      [("columns", .arr [.str "SECID", .str "LAST", .str "OPEN"]),
       ("data", .arr [.arr [.str "SBER", .num 2, .num 1]])]
      [.str "SECID", .str "LAST", .str "OPEN"]
      [.arr [.str "SBER", .num 2, .num 1]] 0 1 2 1 rfl rfl rfl rfl,
   C5_thm.2.2.1 0 1 2 1 [] (.num 5) .typeError rfl,
   (C5_thm.2.2.2 1 500 (.ok sberPayload) ()).1,
   (C5_thm.2.2.2 1 500 (.ok sberPayload) ()).2.1 (by decide),
   (C5_thm.2.2.2 1 500 (.ok sberPayload) ()).2.2⟩

/-! ## Claim C6 — only tracked keys ever appear -/

/-- Claim C6: whatever the upstream payload and request outcome, every key of
a `get_rates` result is one of the five tracked currencies (assuming the
cache, which only ever holds previous parse results, already satisfies this),
the cache left behind satisfies it again, and every key of a
`get_stock_prices` result is one of the seven tracked tickers. -/
theorem C6_thm (st : CBRState) (outcome : FetchOutcome) (t : ℕ)
    (hcache : ∀ rates, st.cache = some rates →
      ∀ k ∈ rates.map Prod.fst, k ∈ tracked_currencies) :
    (∀ k ∈ (getRates st outcome t).1.map Prod.fst, k ∈ tracked_currencies)
    ∧ (∀ rates, (getRates st outcome t).2.cache = some rates →
        ∀ k ∈ rates.map Prod.fst, k ∈ tracked_currencies)
    ∧ (∀ k ∈ (getStockPrices outcome t).map Prod.fst, k ∈ popular_tickers) := by
  refine ⟨getRates_keys st outcome t hcache, getRates_cache_keys st outcome t hcache, ?_⟩
  intro k hk
  rcases mem_map_fst hk with ⟨v, hv⟩
  exact (getStockPrices_mem hv).1

/-- Claim C6, witness: on a fresh service and the sample payloads, the keys
that actually appear (`USD`, `SBER`) are confirmed tracked by the theorem. -/
theorem C6_witness :
    "USD" ∈ tracked_currencies ∧ "SBER" ∈ popular_tickers :=
  ⟨(C6_thm CBRState.init (.response 200 (.ok usdPayload)) 0
      (fun rates h => by cases h)).1 "USD"
      (by rw [getRates_usd]; decide),
   (C6_thm CBRState.init (.response 200 (.ok sberPayload)) 0
      (fun rates h => by cases h)).2.2 "SBER"
      (by rw [getStockPrices_sber]; decide)⟩

/-! ## Claim C9 — positive prices, zero volume, skipped bad rows -/

/-- Claim C9: every quote in a `get_stock_prices` result has a strictly
positive price and the hard-coded volume `0.0`; and a row whose `LAST` cell
is `null`, zero or negative is skipped (its processing yields no quote). -/
theorem C9_thm :
    (∀ (outcome : FetchOutcome) (t : ℕ) (k : String) (sd : StockData),
      (getStockPrices outcome t).lookup k = some sd →
      0 < sd.price ∧ sd.volume = 0)
    ∧ (∀ (cells : List Json) (s l o t : ℕ),
      cells.length > max s (max l o) →
      (cells.get? l = some .null ∨ ∃ q, cells.get? l = some (.num q) ∧ q ≤ 0) →
      rowResult (.arr cells) s l o t = .ok none) := by
  constructor
  · intro outcome t k sd h
    have hm := lookup_mem h
    exact ⟨(getStockPrices_mem hm).2.1, (getStockPrices_mem hm).2.2⟩
  · intro cells s l o t hlen hbad
    have hs : s < cells.length := lt_of_le_of_lt (le_max_left _ _) hlen
    have ho : o < cells.length :=
      lt_of_le_of_lt (le_trans (le_max_right _ _) (le_max_right _ _)) hlen
    obtain ⟨tx, htx⟩ : ∃ x, cells.get? s = some x := by
      cases hx : cells.get? s with
      | none => exact absurd (List.get?_eq_none.1 hx) (not_le.2 hs)
      | some x => exact ⟨x, rfl⟩
    obtain ⟨ox, hox⟩ : ∃ x, cells.get? o = some x := by
      cases hx : cells.get? o with
      | none => exact absurd (List.get?_eq_none.1 hx) (not_le.2 ho)
      | some x => exact ⟨x, rfl⟩
    simp only [rowResult, bind, Except.bind, pure, Except.pure, pyLen]
    rw [if_pos hlen]
    rcases hbad with hnull | ⟨q, hq, hq0⟩
    · simp only [pyIndexNat, htx, hox, hnull]
      cases tx with
      | str sname => rw [if_neg (by simp)]
      | null => rw [if_neg (by simp)]
      | bool b => rw [if_neg (by simp)]
      | num q => rw [if_neg (by simp)]
      | arr xs => rw [if_neg (by simp)]
      | obj fs => rw [if_neg (by simp)]
    · simp only [pyIndexNat, htx, hox, hq]
      have hgt : pyGt (.num q) 0 = .ok false := by
        simp [pyGt, Json.asNum?, not_lt.2 hq0]
      cases tx with
      | str sname =>
        by_cases htr : popular_tickers.contains sname = true
            ∧ Json.num q ≠ Json.null ∧ ox ≠ Json.null
        · rw [if_pos htr]
          simp [hgt]
        · rw [if_neg htr]
      | null => rw [if_neg (by simp)]
      | bool b => rw [if_neg (by simp)]
      | num q' => rw [if_neg (by simp)]
      | arr xs => rw [if_neg (by simp)]
      | obj fs => rw [if_neg (by simp)]

/-- Claim C9, witness: the accepted `SBER` quote of the sample payload has a
positive price and zero volume, and a zero-`LAST` row is skipped. -/
theorem C9_witness :
    (0 < sberQuote.price ∧ sberQuote.volume = 0)
    ∧ rowResult (.arr [.str "SBER", .num 0, .num 1]) 0 1 2 0 = .ok none :=
  ⟨C9_thm.1 (.response 200 (.ok sberPayload)) 0 "SBER" sberQuote
      (by rw [getStockPrices_sber]; rfl),
   C9_thm.2 [.str "SBER", .num 0, .num 1] 0 1 2 0 (by decide)
      (Or.inr ⟨0, rfl, le_refl 0⟩)⟩

/-! ## Claim C7 — `fetch_one` never throws and is a lookup -/

/-- Claim C7: for any key, `get_specific_rate` and `get_specific_stock`
delegate to their `fetch_all` and look up the uppercased key, returning the
record when present and nothing when the key is absent; in particular an
untracked (uppercased) key always yields nothing.  Both operations are total
functions of the request outcome: no input makes them raise. -/
theorem C7_thm (st : CBRState) (outcome : FetchOutcome) (t : ℕ) (key : String)
    (hcache : ∀ rates, st.cache = some rates →
      ∀ k ∈ rates.map Prod.fst, k ∈ tracked_currencies) :
    (get_specific_rate st outcome t key).1
      = (getRates st outcome t).1.lookup (pyUpper key)
    ∧ (pyUpper key ∉ tracked_currencies →
        (get_specific_rate st outcome t key).1 = none)
    ∧ get_specific_stock outcome t key
      = (getStockPrices outcome t).lookup (pyUpper key)
    ∧ (pyUpper key ∉ popular_tickers → get_specific_stock outcome t key = none) := by
  refine ⟨rfl, ?_, rfl, ?_⟩
  · intro hnot
    cases hlk : (getRates st outcome t).1.lookup (pyUpper key) with
    | none => exact hlk
    | some v =>
      have hm := lookup_mem hlk
      have : pyUpper key ∈ (getRates st outcome t).1.map Prod.fst :=
        List.mem_map.2 ⟨(pyUpper key, v), hm, rfl⟩
      exact absurd (getRates_keys st outcome t hcache _ this) hnot
  · intro hnot
    cases hlk : (getStockPrices outcome t).lookup (pyUpper key) with
    | none => exact hlk
    | some v =>
      have hm := lookup_mem hlk
      exact absurd (getStockPrices_mem hm).1 hnot

/-- Claim C7, witness: the untracked, lower-case key `xyz` yields nothing
from both adapters on a fresh state with a transport failure. -/
theorem C7_witness :
    (get_specific_rate CBRState.init .transportError 0 "xyz").1 = none
    ∧ get_specific_stock .transportError 0 "xyz" = none :=
  ⟨(C7_thm CBRState.init .transportError 0 "xyz"
      (fun rates h => by cases h)).2.1 (by decide),
   (C7_thm CBRState.init .transportError 0 "xyz"
      (fun rates h => by cases h)).2.2.2 (by decide)⟩

/-! ## Claim C2 — the currency-rate formulas -/

/-- Claim C2: in a well-formed upstream payload (every tracked entry present
parses cleanly), every tracked code with entry values `Value = vq`,
`Previous = pq` yields a record whose `rate`, `change` and `change_percent`
are `vq`, `vq − pq` and `(vq − pq)/pq · 100` (or `0` when `pq = 0`), each
rounded to 4 decimal digits by the construction-time validator. -/
theorem C2_thm (ds valute fs : List (String × Json)) (t : ℕ) (code : String)
    (v p : Json) (vq pq : ℚ)
    (hv : ds.lookup "Valute" = some (.obj valute))
    (hwf : ∀ c ∈ tracked_currencies, entryWF valute c)
    (hcode : code ∈ tracked_currencies)
    (hlk : valute.lookup code = some (.obj fs))
    (hval : fs.lookup "Value" = some v) (hvq : pyFloat v = .ok vq)
    (hprev : fs.lookup "Previous" = some p) (hpq : pyFloat p = .ok pq) :
    (parseRates (.obj ds) t).toOption.bind (fun rates => rates.lookup code)
      = some (CurrencyRate.make (code ++ "/RUB") vq (vq - pq)
          (if pq ≠ 0 then (vq - pq) / pq * 100 else 0) t)
    ∧ (CurrencyRate.make (code ++ "/RUB") vq (vq - pq)
        (if pq ≠ 0 then (vq - pq) / pq * 100 else 0) t).rate = roundTo 4 vq
    ∧ (CurrencyRate.make (code ++ "/RUB") vq (vq - pq)
        (if pq ≠ 0 then (vq - pq) / pq * 100 else 0) t).change
      = roundTo 4 (vq - pq)
    ∧ (CurrencyRate.make (code ++ "/RUB") vq (vq - pq)
        (if pq ≠ 0 then (vq - pq) / pq * 100 else 0) t).change_percent
      = roundTo 4 (if pq ≠ 0 then (vq - pq) / pq * 100 else 0) := by
  rcases parseRates_fold_wf t hv tracked_currencies (by decide) hwf [] with
    ⟨res, hfold, hpres, hprop⟩
  have hp : parseRates (.obj ds) t = .ok res := by
    unfold parseRates parseRatesRaw
    rw [hfold]
  refine ⟨?_, rfl, rfl, rfl⟩
  rw [hp]
  simp only [Except.toOption, Option.bind]
  exact hprop code hcode fs v p vq pq hlk hval hvq hprev hpq

/-- Claim C2, witness: the spec's sample payload
(`USD: Value 91.5, Previous 91.3`). -/
theorem C2_witness :
    (parseRates usdPayload 0).toOption.bind (fun rates => rates.lookup "USD")
      = some (CurrencyRate.make ("USD" ++ "/RUB") (183 / 2) (183 / 2 - 913 / 10)
          (if (913 / 10 : ℚ) ≠ 0 then (183 / 2 - 913 / 10) / (913 / 10) * 100 else 0) 0)
    ∧ (CurrencyRate.make ("USD" ++ "/RUB") (183 / 2) (183 / 2 - 913 / 10)
        (if (913 / 10 : ℚ) ≠ 0 then (183 / 2 - 913 / 10) / (913 / 10) * 100 else 0)
        0).change_percent
      = roundTo 4 (if (913 / 10 : ℚ) ≠ 0
          then (183 / 2 - 913 / 10) / (913 / 10) * 100 else 0) := by
  have h := C2_thm [("Valute", .obj [("USD", .obj usdFields)])]
    [("USD", .obj usdFields)] usdFields 0 "USD"
    (.num (183 / 2)) (.num (913 / 10)) (183 / 2) (913 / 10)
    rfl
    (by
      intro c hc
      fin_cases hc
      · exact Or.inr ⟨usdFields, 183 / 2, 913 / 10, rfl,
          ⟨.num (183 / 2), rfl, rfl⟩, ⟨.num (913 / 10), rfl, rfl⟩⟩
      · exact Or.inl rfl
      · exact Or.inl rfl
      · exact Or.inl rfl
      · exact Or.inl rfl)
    (by decide) rfl rfl rfl rfl rfl
  exact ⟨h.1, h.2.2.2⟩

/-! ## Claim C4 — batch abort on malformed entries

The claim says any missing field or non-numeric value empties the whole
batch.  That is what happens for a missing `Value`/`Previous` (`KeyError`)
and for a non-numeric *string* (`ValueError`), but a non-numeric `null`,
list or object makes `float` raise `TypeError`, which `_parse_rates` does
not catch: the batch is then not an empty mapping — `get_rates` falls back
to the cached-or-empty mapping without updating the cache. -/

/-- Claim C4, counterexample: `USD` has the non-numeric value `null`;
parsing raises instead of returning the empty batch, and `fetch_all` with a
non-empty cache returns the old cached mapping, not an empty one. -/
theorem C4_counterexample :
    parseRates nullValuePayload 1 = .error .typeError
    ∧ (getRates cachedState (.response 200 (.ok nullValuePayload)) 1).1
      = [("USD", sampleRate)]
    ∧ (getRates cachedState (.response 200 (.ok nullValuePayload)) 1).1 ≠ [] := by
  refine ⟨rfl, rfl, ?_⟩
  intro h
  rw [show (getRates cachedState (.response 200 (.ok nullValuePayload)) 1).1
      = [("USD", sampleRate)] from rfl] at h
  cases h

/-- Claim C4 (amended): when every tracked entry present is tame (no value
makes `float` raise `TypeError`) and at least one is malformed — missing
`Value` or `Previous`, or carrying a non-numeric string — parsing of the
whole batch is aborted and the empty mapping is returned, even if other
entries were well-formed. -/
theorem C4_amended_thm (ds valute : List (String × Json)) (t : ℕ)
    (hv : ds.lookup "Valute" = some (.obj valute))
    (htame : ∀ c ∈ tracked_currencies, valute.lookup c = none
      ∨ ∃ e, valute.lookup c = some e ∧ entryTame e)
    (hbad : ∃ c ∈ tracked_currencies, ∃ e, valute.lookup c = some e ∧ entryBad e) :
    parseRates (.obj ds) t = .ok [] := by
  rcases parseRates_fold_bad t hv tracked_currencies [] htame hbad with h | h <;>
    · unfold parseRates parseRatesRaw
      rw [h]

/-- Claim C4, witness: the payload whose `USD` entry lacks `Value` (while its
other field is a number) empties the whole batch. -/
theorem C4_witness : parseRates missingValuePayload 1 = .ok [] :=
  C4_amended_thm [("Valute", .obj [("USD", .obj [("Previous", .num 1)])])]
    [("USD", .obj [("Previous", .num 1)])] 1 rfl
    (by
      intro c hc
      fin_cases hc
      · refine Or.inr ⟨.obj [("Previous", .num 1)], rfl,
          [("Previous", .num 1)], rfl, ?_, ?_⟩
        · intro v hv'
          cases hv'
        · intro p hp'
          cases hp'
          intro h
          cases h
      · exact Or.inl rfl
      · exact Or.inl rfl
      · exact Or.inl rfl
      · exact Or.inl rfl)
    ⟨"USD", by decide, .obj [("Previous", .num 1)], rfl,
      ⟨[("Previous", .num 1)], rfl, Or.inl rfl⟩⟩

/-! ## Claim C3 — the stock percent-change formula

The claim allows `change_percent = 0.0` only when `OPEN` is `0` or missing,
but the code's guard is `open_price > 0`: a *negative* `OPEN` also produces
`0.0` where the claim demands the rounded formula. -/

/-- Claim C3, counterexample: the tracked, accepted row
`["SBER", 100, -50]` is emitted with `change_percent = 0`, while the claim's
formula `round((100 − (−50))/(−50) · 100, 2)` equals `−300`. -/
theorem C3_counterexample :
    (parseStocksResponse negOpenPayload 0).lookup "SBER"
      = some { ticker := "SBER", price := 100, change_percent := 0,
               volume := 0, timestamp := 0 }
    ∧ roundTo 2 ((100 - mkRat (-50) 1) / mkRat (-50) 1 * 100) = -300
    ∧ ¬((0 : ℚ) = -300) := by
  refine ⟨by rw [parseStocks_negOpen]; rfl, ?_, by norm_num⟩
  unfold roundTo roundHalfEven
  rw [Rat.mkRat_eq_div]
  norm_num

/-- Claim C3 (amended): for every accepted row (tracked ticker, non-null
prices, positive last price), the emitted quote's `change_percent` is
`round((last − open)/open · 100, 2)` when `open > 0`, and `0.0` when `open`
is zero **or negative**; a row with a missing (`null`) `open` is not emitted
at all. -/
theorem C3_amended_thm (cells : List Json) (s l o t : ℕ) (tick : String)
    (lq oq : ℚ)
    (hlen : cells.length > max s (max l o))
    (hts : cells.get? s = some (.str tick))
    (htl : cells.get? l = some (.num lq))
    (hto : cells.get? o = some (.num oq))
    (htr : tick ∈ popular_tickers)
    (hlq : 0 < lq) :
    rowResult (.arr cells) s l o t
      = .ok (some (tick,
          { ticker := tick, price := lq,
            change_percent := if 0 < oq then roundTo 2 ((lq - oq) / oq * 100) else 0,
            volume := 0, timestamp := t })) := by
  simp only [rowResult, bind, Except.bind, pure, Except.pure, pyLen]
  rw [if_pos hlen]
  simp only [pyIndexNat, hts, htl, hto]
  rw [if_pos ⟨by simpa using htr, by simp, by simp⟩]
  have hgl : pyGt (.num lq) 0 = .ok true := by simp [pyGt, Json.asNum?, hlq]
  by_cases ho : 0 < oq
  · have hgo : pyGt (.num oq) 0 = .ok true := by simp [pyGt, Json.asNum?, ho]
    simp only [hgl, hgo, pyNumVal, Json.asNum?, pyFloat, eq_self_iff_true,
      if_true]
    rw [if_neg (not_lt.2 hlq.le), if_pos ho]
  · have hgo : pyGt (.num oq) 0 = .ok false := by simp [pyGt, Json.asNum?, ho]
    simp only [hgl, hgo, pyFloat, eq_self_iff_true, if_true,
      show (false = true) = False from by simp, if_false]
    rw [if_neg (not_lt.2 hlq.le), if_neg ho, roundTo_zero]

/-- Claim C3, witness: the amended theorem at the accepted spec row
`["SBER", 2, 1]`. -/
theorem C3_witness :
    rowResult (.arr [.str "SBER", .num 2, .num 1]) 0 1 2 0
      = .ok (some ("SBER",
          { ticker := "SBER", price := 2,
            change_percent := if (0 : ℚ) < 1
              then roundTo 2 (((2 : ℚ) - 1) / 1 * 100) else 0,
            volume := 0, timestamp := 0 })) :=
  C3_amended_thm [.str "SBER", .num 2, .num 1] 0 1 2 0 "SBER" 2 1
    (by decide) rfl rfl rfl (by decide) (by norm_num)

/-! ## Claim C8 — supported-keys lists and aliasing

`MOEXService.get_supported_tickers` returns `self.popular_tickers.copy()` —
a fresh list object.  But the CBR side has no such method: the
`/currencies/supported` endpoint puts `cbr_service.tracked_currencies`
itself into its response, so a caller holding that list object mutates the
adapter's internal list. -/

/-- Claim C8, counterexample: the supported-currencies endpoint returns the
internal list object itself; writing through the returned reference changes
what the adapter's internal list then holds (it was the non-empty tracked
list before). -/
theorem C8_counterexample :
    (get_supported_currencies (CBRService.init ListHeap.empty).1
        (CBRService.init ListHeap.empty).2).1
      = (CBRService.init ListHeap.empty).1.tracked_currencies_addr
    ∧ ((CBRService.init ListHeap.empty).2.write
          (get_supported_currencies (CBRService.init ListHeap.empty).1
            (CBRService.init ListHeap.empty).2).1 []).read
        (CBRService.init ListHeap.empty).1.tracked_currencies_addr = []
    ∧ (CBRService.init ListHeap.empty).2.read
        (CBRService.init ListHeap.empty).1.tracked_currencies_addr ≠ [] := by
  refine ⟨rfl, rfl, ?_⟩
  intro h
  rw [show (CBRService.init ListHeap.empty).2.read
      (CBRService.init ListHeap.empty).1.tracked_currencies_addr
      = tracked_currencies from rfl] at h
  cases h

/-- Claim C8 (amended): `get_supported_tickers` returns an independent copy —
a fresh list object with the internal list's contents; mutating it leaves the
internal list, and what every subsequent call returns, unchanged.  The CBR
adapter has no such accessor: the supported-currencies endpoint hands out the
internal list object itself, and writing through it rewrites the adapter's
list. -/
theorem C8_amended_thm (s : MOEXServiceRef) (cs : CBRServiceRef)
    (h hc : ListHeap) (hs : s.popular_tickers_addr < h.next) :
    (get_supported_tickers s h).1 ≠ s.popular_tickers_addr
    ∧ (get_supported_tickers s h).2.read (get_supported_tickers s h).1
        = h.read s.popular_tickers_addr
    ∧ (∀ v, ((get_supported_tickers s h).2.write
          (get_supported_tickers s h).1 v).read s.popular_tickers_addr
        = h.read s.popular_tickers_addr)
    ∧ (∀ v,
        (get_supported_tickers s
            ((get_supported_tickers s h).2.write
              (get_supported_tickers s h).1 v)).2.read
          (get_supported_tickers s
            ((get_supported_tickers s h).2.write
              (get_supported_tickers s h).1 v)).1
        = h.read s.popular_tickers_addr)
    ∧ (get_supported_currencies cs hc).1 = cs.tracked_currencies_addr
    ∧ (∀ v, ((get_supported_currencies cs hc).2.write
          (get_supported_currencies cs hc).1 v).read cs.tracked_currencies_addr
        = v) := by
  have hne : s.popular_tickers_addr ≠ h.next := Nat.ne_of_lt hs
  refine ⟨hne.symm, ?_, ?_, ?_, rfl, ?_⟩
  · exact ListHeap.read_alloc_self h _
  · intro v
    rw [show (get_supported_tickers s h).1 = h.next from rfl,
      ListHeap.read_write_other _ _ hne,
      show (get_supported_tickers s h).2
        = (h.alloc (h.read s.popular_tickers_addr)).2 from rfl,
      ListHeap.read_alloc_other _ _ hne]
  · intro v
    rw [show (get_supported_tickers s
        ((get_supported_tickers s h).2.write (get_supported_tickers s h).1 v)).2
        = (((get_supported_tickers s h).2.write (get_supported_tickers s h).1 v).alloc
            (((get_supported_tickers s h).2.write (get_supported_tickers s h).1 v).read
              s.popular_tickers_addr)).2 from rfl]
    rw [show (get_supported_tickers s
        ((get_supported_tickers s h).2.write (get_supported_tickers s h).1 v)).1
        = ((get_supported_tickers s h).2.write (get_supported_tickers s h).1 v).next
        from rfl]
    rw [ListHeap.read_alloc_self]
    rw [show (get_supported_tickers s h).1 = h.next from rfl,
      ListHeap.read_write_other _ _ hne,
      show (get_supported_tickers s h).2
        = (h.alloc (h.read s.popular_tickers_addr)).2 from rfl,
      ListHeap.read_alloc_other _ _ hne]
  · intro v
    exact ListHeap.read_write_self _ _ _

/-- Claim C8, witness: a `MOEXService` allocated on the empty heap — the
returned copy is a different object, and mutating it does not change the
internal list. -/
theorem C8_witness :
    (get_supported_tickers (MOEXService.init ListHeap.empty).1
        (MOEXService.init ListHeap.empty).2).1
      ≠ (MOEXService.init ListHeap.empty).1.popular_tickers_addr
    ∧ ((get_supported_tickers (MOEXService.init ListHeap.empty).1
          (MOEXService.init ListHeap.empty).2).2.write
        (get_supported_tickers (MOEXService.init ListHeap.empty).1
          (MOEXService.init ListHeap.empty).2).1 []).read
        (MOEXService.init ListHeap.empty).1.popular_tickers_addr
      = (MOEXService.init ListHeap.empty).2.read
        (MOEXService.init ListHeap.empty).1.popular_tickers_addr :=
  ⟨(C8_amended_thm (MOEXService.init ListHeap.empty).1
      (CBRService.init ListHeap.empty).1 (MOEXService.init ListHeap.empty).2
      (CBRService.init ListHeap.empty).2 (by decide)).1,
   (C8_amended_thm (MOEXService.init ListHeap.empty).1
      (CBRService.init ListHeap.empty).1 (MOEXService.init ListHeap.empty).2
      (CBRService.init ListHeap.empty).2 (by decide)).2.2.1 []⟩

end FinDash
